import Mathlib

/-!
Verification of the WhatsApp chat parsing and conversation-metrics engine
(backend/app/services/chat_parser.py and backend/app/models/__init__.py).

Python strings are modelled as lists of characters (Str), Python datetime
values as integers counting seconds since the Unix epoch, and Python floats
as exact rationals.  The regular-expression matching done with re.match in
the source is embedded through a small set of continuation-passing matcher
combinators with the greedy backtracking semantics of the re module; each
pattern of the source is transliterated combinator by combinator.
-/

namespace SIMT

/-- Python str is modelled as a list of characters. -/
abbrev Str := List Char

/-- LEFT-TO-RIGHT MARK U+200E, written as an invisible character inside the
pattern string literals of chat_parser.py. -/
def lrmChar : Char := Char.ofNat 0x200E

/-- RIGHT-TO-LEFT MARK U+200F, the second escape in the lstrip argument of
ChatParser.clean content. -/
def rlmChar : Char := Char.ofNat 0x200F

/-- LATIN SMALL LETTER A WITH CIRCUMFLEX U+00E2.  The source file contains the
mojibake byte sequence for a narrow no-break space committed as the two
Latin-1 characters U+00E2 U+00AF, so lstrip in the source strips these two
actual characters. -/
def mojAChar : Char := Char.ofNat 0xE2

/-- MACRON U+00AF, second character of the committed mojibake pair. -/
def mojMacronChar : Char := Char.ofNat 0xAF

/-- Apostrophe character, used in two system-message patterns. -/
def aposChar : Char := Char.ofNat 39

/-- Whitespace in the sense of Python str.strip() and of the regex class
backslash-s in Unicode mode: ASCII whitespace, the C1 separators, and the
Unicode space characters. -/
def isSpaceChar (c : Char) : Bool :=
  let n := c.toNat
  (9 ≤ n && n ≤ 13) || n = 32 || (28 ≤ n && n ≤ 31) || n = 0x85 || n = 0xA0 ||
  n = 0x1680 || (0x2000 ≤ n && n ≤ 0x200A) || n = 0x2028 || n = 0x2029 ||
  n = 0x202F || n = 0x205F || n = 0x3000

/-- Python str.strip() with no argument: remove leading and trailing
whitespace. -/
def pyStrip (s : Str) : Str :=
  ((s.dropWhile isSpaceChar).reverse.dropWhile isSpaceChar).reverse

/-- Python str.lstrip(chars): remove leading characters belonging to the
given set. -/
def pyLstrip (chars : Str) (s : Str) : Str :=
  s.dropWhile (fun c => chars.contains c)

/-- ASCII decimal digit, the regex class backslash-d for the inputs at hand. -/
def isDigitChar (c : Char) : Bool := c.isDigit

/-- Word character for the regex class backslash-w, modelled over ASCII
(alphanumeric or underscore); the only pattern using it is anchored on a
leading U+200E mark. -/
def isWordChar (c : Char) : Bool := c.isAlphanum || c = '_'

/-- Lower-cases a string character by character (ASCII case folding; every
pattern literal that is matched case-insensitively is ASCII). -/
def lowerStr (s : Str) : Str := s.map Char.toLower

/-!
Matcher combinators.  A matcher consumes a prefix of the input and passes the
remaining suffix to its continuation; alternatives are tried in the greedy
backtracking order of the Python re module, with Option.orElse providing the
backtracking.
-/

/-- Matches one character satisfying p. -/
def mChar {α : Type} (p : Char → Bool) (s : Str) (k : Str → Option α) : Option α :=
  match s with
  | [] => none
  | c :: rest => if p c then k rest else none

/-- Matches a literal character sequence. -/
def mLit {α : Type} : Str → Str → (Str → Option α) → Option α
  | [], s, k => k s
  | c :: cs, s, k => mChar (fun d => d = c) s (fun r => mLit cs r k)

/-- Matches between zero and n characters satisfying p, greedily: the longest
consumption is tried first and shorter ones on backtracking, exactly as a
bounded greedy repetition of a one-character class behaves in re. -/
def mUpTo {α : Type} (p : Char → Bool) : Nat → Str → (Str → Option α) → Option α
  | 0, s, k => k s
  | n + 1, s, k =>
    match s with
    | [] => k []
    | c :: rest =>
      if p c then (mUpTo p n rest k).orElse (fun _ => k (c :: rest))
      else k (c :: rest)

/-- Greedy star over a one-character class. -/
def mStar {α : Type} (p : Char → Bool) (s : Str) (k : Str → Option α) : Option α :=
  mUpTo p s.length s k

/-- Greedy plus over a one-character class. -/
def mPlus {α : Type} (p : Char → Bool) (s : Str) (k : Str → Option α) : Option α :=
  mChar p s (fun r => mStar p r k)

/-- Greedy option: try the body first, fall back to skipping it. -/
def mOpt {α : Type} (f : Str → (Str → Option α) → Option α)
    (s : Str) (k : Str → Option α) : Option α :=
  (f s k).orElse (fun _ => k s)

/-- Ordered alternation. -/
def mAlt {α : Type} (f g : Str → (Str → Option α) → Option α)
    (s : Str) (k : Str → Option α) : Option α :=
  (f s k).orElse (fun _ => g s k)

/-- Runs a sub-matcher and hands its continuation both the consumed prefix
(the captured group text) and the remaining suffix. -/
def mCapture {α : Type} (f : Str → (Str → Option α) → Option α)
    (s : Str) (k : Str → Str → Option α) : Option α :=
  f s (fun rest => k (s.take (s.length - rest.length)) rest)

/-!
Header-line patterns of ChatParser.  The primary pattern WHATSAPP_PATTERN and
the three ALTERNATIVE_PATTERNS are tried in order by match message line; each
returns the triple of captured groups (timestamp text, sender, content).
-/

/-- Result triple of a header match: timestamp text, sender, content. -/
abbrev HeaderGroups := Str × Str × Str

/-- Embeds re.match of the primary pattern, a backslash-bracket, one or more
non-bracket characters captured, the closing bracket, whitespace, a captured
run of non-colon characters, a colon, whitespace, and a captured non-empty
remainder. -/
def matchWhatsappPattern (line : Str) : Option HeaderGroups :=
  mChar (fun c => c = '[') line (fun s1 =>
  mCapture (mPlus (fun c => c ≠ ']')) s1 (fun g1 s2 =>
  mChar (fun c => c = ']') s2 (fun s3 =>
  mPlus isSpaceChar s3 (fun s4 =>
  mCapture (mPlus (fun c => c ≠ ':')) s4 (fun g2 s5 =>
  mChar (fun c => c = ':') s5 (fun s6 =>
  mPlus isSpaceChar s6 (fun s7 =>
  mCapture (mPlus (fun c => c ≠ '\n')) s7 (fun g3 _ =>
  some (g1, g2, g3)))))))))

/-- One or two decimal digits, greedy. -/
def mDigits12 {α : Type} (s : Str) (k : Str → Option α) : Option α :=
  mChar isDigitChar s (fun r => mUpTo isDigitChar 1 r k)

/-- The AM/PM alternation appearing verbatim in the alternative patterns. -/
def mAmPm {α : Type} (s : Str) (k : Str → Option α) : Option α :=
  mAlt (mLit ['A', 'M']) (mAlt (mLit ['P', 'M']) (mAlt (mLit ['a', 'm'])
    (mLit ['p', 'm']))) s k

/-- Date-and-time sub-pattern shared by the first two alternative patterns:
one or two digits, slash, one or two digits, slash, two to four digits, comma,
whitespace, one or two digits, colon, two digits, an optional colon-and-two-
digits group, optional whitespace, and an optional AM/PM marker. -/
def mDateTimeCore {α : Type} (s : Str) (k : Str → Option α) : Option α :=
  mDigits12 s (fun a => mLit ['/'] a (fun b =>
  mDigits12 b (fun c => mLit ['/'] c (fun d =>
  mChar isDigitChar d (fun e => mChar isDigitChar e (fun f =>
  mUpTo isDigitChar 2 f (fun g =>
  mLit [','] g (fun h => mPlus isSpaceChar h (fun i =>
  mDigits12 i (fun j => mLit [':'] j (fun l =>
  mChar isDigitChar l (fun m => mChar isDigitChar m (fun n =>
  mOpt (fun t kt => mLit [':'] t (fun r =>
    mChar isDigitChar r (fun r2 => mChar isDigitChar r2 kt))) n (fun o =>
  mStar isSpaceChar o (fun p2 =>
  mOpt mAmPm p2 k)))))))))))))))

/-- Date-and-time sub-pattern of the third alternative pattern: the same core
without the optional whitespace-and-AM/PM tail. -/
def mDateTimeCoreNoAmPm {α : Type} (s : Str) (k : Str → Option α) : Option α :=
  mDigits12 s (fun a => mLit ['/'] a (fun b =>
  mDigits12 b (fun c => mLit ['/'] c (fun d =>
  mChar isDigitChar d (fun e => mChar isDigitChar e (fun f =>
  mUpTo isDigitChar 2 f (fun g =>
  mLit [','] g (fun h => mPlus isSpaceChar h (fun i =>
  mDigits12 i (fun j => mLit [':'] j (fun l =>
  mChar isDigitChar l (fun m => mChar isDigitChar m (fun n =>
  mOpt (fun t kt => mLit [':'] t (fun r =>
    mChar isDigitChar r (fun r2 => mChar isDigitChar r2 kt))) n k)))))))))))))

/-- Embeds re.match of the first alternative pattern: the bracketed
date-and-time form with the date validated digit by digit. -/
def matchAlternative1 (line : Str) : Option HeaderGroups :=
  mChar (fun c => c = '[') line (fun s1 =>
  mCapture mDateTimeCore s1 (fun g1 s2 =>
  mChar (fun c => c = ']') s2 (fun s3 =>
  mPlus isSpaceChar s3 (fun s4 =>
  mCapture (mPlus (fun c => c ≠ ':')) s4 (fun g2 s5 =>
  mChar (fun c => c = ':') s5 (fun s6 =>
  mPlus isSpaceChar s6 (fun s7 =>
  mCapture (mPlus (fun c => c ≠ '\n')) s7 (fun g3 _ =>
  some (g1, g2, g3)))))))))

/-- Embeds re.match of the second alternative pattern: the dash-separated
form whose separator class contains the dash and the mojibake character
U+00E2 committed in the source. -/
def matchAlternative2 (line : Str) : Option HeaderGroups :=
  mCapture mDateTimeCore line (fun g1 s2 =>
  mStar isSpaceChar s2 (fun s3 =>
  mChar (fun c => c = '-' || c = mojAChar) s3 (fun s4 =>
  mStar isSpaceChar s4 (fun s5 =>
  mCapture (mPlus (fun c => c ≠ ':')) s5 (fun g2 s6 =>
  mChar (fun c => c = ':') s6 (fun s7 =>
  mPlus isSpaceChar s7 (fun s8 =>
  mCapture (mPlus (fun c => c ≠ '\n')) s8 (fun g3 _ =>
  some (g1, g2, g3)))))))))

/-- Embeds re.match of the third alternative pattern: the dash-separated form
without the AM/PM marker. -/
def matchAlternative3 (line : Str) : Option HeaderGroups :=
  mCapture mDateTimeCoreNoAmPm line (fun g1 s2 =>
  mStar isSpaceChar s2 (fun s3 =>
  mChar (fun c => c = '-' || c = mojAChar) s3 (fun s4 =>
  mStar isSpaceChar s4 (fun s5 =>
  mCapture (mPlus (fun c => c ≠ ':')) s5 (fun g2 s6 =>
  mChar (fun c => c = ':') s6 (fun s7 =>
  mPlus isSpaceChar s7 (fun s8 =>
  mCapture (mPlus (fun c => c ≠ '\n')) s8 (fun g3 _ =>
  some (g1, g2, g3)))))))))

/-- Embeds ChatParser.match message line: the primary pattern is tried first,
then the three alternative patterns in order. -/
def matchMessageLine (line : Str) : Option HeaderGroups :=
  ((matchWhatsappPattern line).orElse (fun _ => matchAlternative1 line)).orElse
    (fun _ => (matchAlternative2 line).orElse (fun _ => matchAlternative3 line))

/-!
Timestamp normalizer.  ChatParser.parse timestamp tries the twelve strptime
format strings of DATE_FORMATS in order.  CPython strptime compiles a format
into a regex: each numeric directive is an alternation preferring the
two-digit reading, whitespace in the format matches one or more whitespace
characters, the whole input must be consumed, and the resulting fields must
form a valid calendar date and a second below sixty, otherwise ValueError is
raised and the next format is tried.  Instants are modelled as seconds since
the Unix epoch.
-/

/-- Numeric field of one or two digits with the backtracking alternation
semantics of the strptime field regexes: the two-digit reading is tried
first when its value is accepted, the one-digit reading on backtracking. -/
def mNum2or1 {α : Type} (two one : Nat → Bool) (s : Str) (k : Nat → Str → Option α) :
    Option α :=
  (match s with
   | c1 :: c2 :: rest =>
     if c1.isDigit && c2.isDigit && two (10 * (c1.toNat - 48) + (c2.toNat - 48)) then
       k (10 * (c1.toNat - 48) + (c2.toNat - 48)) rest
     else none
   | _ => none).orElse (fun _ =>
   match s with
   | c1 :: rest => if c1.isDigit && one (c1.toNat - 48) then k (c1.toNat - 48) rest else none
   | [] => none)

/-- strptime month field: two digits 01 to 12, or one digit 1 to 9. -/
def mMonthField {α : Type} : Str → (Nat → Str → Option α) → Option α :=
  mNum2or1 (fun v => 1 ≤ v && v ≤ 12) (fun v => 1 ≤ v && v ≤ 9)

/-- strptime day field: two digits 01 to 31, or one digit 1 to 9. -/
def mDayField {α : Type} : Str → (Nat → Str → Option α) → Option α :=
  mNum2or1 (fun v => 1 ≤ v && v ≤ 31) (fun v => 1 ≤ v && v ≤ 9)

/-- strptime twelve-hour field: like the month field. -/
def mHour12Field {α : Type} : Str → (Nat → Str → Option α) → Option α :=
  mNum2or1 (fun v => 1 ≤ v && v ≤ 12) (fun v => 1 ≤ v && v ≤ 9)

/-- strptime twenty-four-hour field: two digits 00 to 23, or one digit. -/
def mHour24Field {α : Type} : Str → (Nat → Str → Option α) → Option α :=
  mNum2or1 (fun v => v ≤ 23) (fun v => v ≤ 9)

/-- strptime minute field: two digits 00 to 59, or one digit. -/
def mMinuteField {α : Type} : Str → (Nat → Str → Option α) → Option α :=
  mNum2or1 (fun v => v ≤ 59) (fun v => v ≤ 9)

/-- strptime second field: two digits 00 to 61, or one digit; values sixty
and sixty-one pass the field but are rejected later by the datetime
constructor. -/
def mSecondField {α : Type} : Str → (Nat → Str → Option α) → Option α :=
  mNum2or1 (fun v => v ≤ 61) (fun v => v ≤ 9)

/-- strptime two-digit year field: exactly two digits; values up to 68 land
in the twenty-first century, the rest in the twentieth. -/
def mYear2Field {α : Type} (s : Str) (k : Nat → Str → Option α) : Option α :=
  match s with
  | c1 :: c2 :: rest =>
    if c1.isDigit && c2.isDigit then
      let v := 10 * (c1.toNat - 48) + (c2.toNat - 48)
      k (if v ≤ 68 then 2000 + v else 1900 + v) rest
    else none
  | _ => none

/-- strptime four-digit year field: exactly four digits. -/
def mYear4Field {α : Type} (s : Str) (k : Nat → Str → Option α) : Option α :=
  match s with
  | c1 :: c2 :: c3 :: c4 :: rest =>
    if c1.isDigit && c2.isDigit && c3.isDigit && c4.isDigit then
      k (1000 * (c1.toNat - 48) + 100 * (c2.toNat - 48) + 10 * (c3.toNat - 48) +
         (c4.toNat - 48)) rest
    else none
  | _ => none

/-- strptime AM/PM field, case-insensitive; yields true for PM. -/
def mAmPmField {α : Type} (s : Str) (k : Bool → Str → Option α) : Option α :=
  match s with
  | c1 :: c2 :: rest =>
    if (c1 = 'a' || c1 = 'A') && (c2 = 'm' || c2 = 'M') then k false rest
    else if (c1 = 'p' || c1 = 'P') && (c2 = 'm' || c2 = 'M') then k true rest
    else none
  | _ => none

/-- Gregorian leap year. -/
def isLeapYear (y : Nat) : Bool :=
  y % 4 = 0 && (y % 100 ≠ 0 || y % 400 = 0)

/-- Number of days of a month, used for the calendar validation performed by
the datetime constructor. -/
def daysInMonth (y m : Nat) : Nat :=
  if m = 2 then (if isLeapYear y then 29 else 28)
  else if m = 4 || m = 6 || m = 9 || m = 11 then 30
  else 31

/-- Days from the Unix epoch to the given civil date (standard
days-from-civil computation). -/
def daysFromCivil (y : Int) (m d : Nat) : Int :=
  let yy : Int := if m ≤ 2 then y - 1 else y
  let era : Int := Int.fdiv yy 400
  let yoe : Int := yy - era * 400
  let mp : Int := if 2 < m then (m : Int) - 3 else (m : Int) + 9
  let doy : Int := Int.fdiv (153 * mp + 2) 5 + (d : Int) - 1
  let doe : Int := yoe * 365 + Int.fdiv yoe 4 - Int.fdiv yoe 100 + doy
  era * 146097 + doe - 719468

/-- Seconds since the Unix epoch of a civil date and time of day. -/
def epochSeconds (y mo d hh mi ss : Nat) : Int :=
  daysFromCivil (y : Int) mo d * 86400 + ((hh * 3600 + mi * 60 + ss : Nat) : Int)

/-- Configuration of one DATE_FORMATS entry: which of the two leading fields
is the day, whether the year has four digits, whether seconds are present,
whether the time is twelve-hour with an AM/PM marker, and whether whitespace
precedes that marker. -/
structure FmtCfg where
  dayFirst : Bool
  year4 : Bool
  withSeconds : Bool
  twelveHour : Bool
  spaceBeforeAmPm : Bool
deriving Repr

/-- Completes a format after the minute field: optional seconds, optional
whitespace-plus-AM/PM, end of input, calendar validation and conversion to
epoch seconds. -/
def finishFmt (cfg : FmtCfg) (yr mo dy hh mi : Nat) (r : Str) : Option Int :=
  let afterSeconds : Nat → Str → Option Int := fun ss r2 =>
    let finish : Bool → Str → Option Int := fun pm r3 =>
      if r3 = [] then
        let hour := if cfg.twelveHour then
            (if pm then (if hh = 12 then 12 else hh + 12)
             else (if hh = 12 then 0 else hh))
          else hh
        if 1 ≤ dy && dy ≤ daysInMonth yr mo && ss ≤ 59 then
          some (epochSeconds yr mo dy hour mi ss)
        else none
      else none
    if cfg.twelveHour then
      if cfg.spaceBeforeAmPm then
        mPlus isSpaceChar r2 (fun r3 => mAmPmField r3 finish)
      else mAmPmField r2 finish
    else finish false r2
  if cfg.withSeconds then
    mLit [':'] r (fun r1 => mSecondField r1 afterSeconds)
  else afterSeconds 0 r

/-- Runs one DATE_FORMATS entry on an input string. -/
def runFmt (cfg : FmtCfg) (s : Str) : Option Int :=
  let firstField : Str → (Nat → Str → Option Int) → Option Int :=
    if cfg.dayFirst then mDayField else mMonthField
  let secondField : Str → (Nat → Str → Option Int) → Option Int :=
    if cfg.dayFirst then mMonthField else mDayField
  let yearField : Str → (Nat → Str → Option Int) → Option Int :=
    if cfg.year4 then mYear4Field else mYear2Field
  let hourField : Str → (Nat → Str → Option Int) → Option Int :=
    if cfg.twelveHour then mHour12Field else mHour24Field
  firstField s (fun v1 r1 => mLit ['/'] r1 (fun r2 =>
  secondField r2 (fun v2 r3 => mLit ['/'] r3 (fun r4 =>
  yearField r4 (fun yr r5 => mLit [','] r5 (fun r6 =>
  mPlus isSpaceChar r6 (fun r7 =>
  hourField r7 (fun hh r8 => mLit [':'] r8 (fun r9 =>
  mMinuteField r9 (fun mi r10 =>
  finishFmt cfg yr (if cfg.dayFirst then v2 else v1) (if cfg.dayFirst then v1 else v2)
    hh mi r10))))))))))

/-- The DATE_FORMATS table of ChatParser, in source order.  The entries are,
in the notation of the source: percent m slash d slash y with twelve-hour
time, seconds and AM/PM separated or not by a space; the same without
seconds; the four variants again with a four-digit year; the two European
day-first twenty-four-hour forms with seconds; and the two twenty-four-hour
forms without seconds. -/
def dateFormats : List FmtCfg :=
  [ { dayFirst := false, year4 := false, withSeconds := true,  twelveHour := true,  spaceBeforeAmPm := true },
    { dayFirst := false, year4 := false, withSeconds := true,  twelveHour := true,  spaceBeforeAmPm := false },
    { dayFirst := false, year4 := false, withSeconds := false, twelveHour := true,  spaceBeforeAmPm := true },
    { dayFirst := false, year4 := false, withSeconds := false, twelveHour := true,  spaceBeforeAmPm := false },
    { dayFirst := false, year4 := true,  withSeconds := true,  twelveHour := true,  spaceBeforeAmPm := true },
    { dayFirst := false, year4 := true,  withSeconds := true,  twelveHour := true,  spaceBeforeAmPm := false },
    { dayFirst := false, year4 := true,  withSeconds := false, twelveHour := true,  spaceBeforeAmPm := true },
    { dayFirst := false, year4 := true,  withSeconds := false, twelveHour := true,  spaceBeforeAmPm := false },
    { dayFirst := true,  year4 := false, withSeconds := true,  twelveHour := false, spaceBeforeAmPm := false },
    { dayFirst := true,  year4 := true,  withSeconds := true,  twelveHour := false, spaceBeforeAmPm := false },
    { dayFirst := false, year4 := false, withSeconds := false, twelveHour := false, spaceBeforeAmPm := false },
    { dayFirst := false, year4 := true,  withSeconds := false, twelveHour := false, spaceBeforeAmPm := false } ]

/-- Embeds ChatParser.parse timestamp: the formats are tried in order and
the first success wins; if every format fails the result is none and the
caller drops the candidate message. -/
def parseTimestamp (s : Str) : Option Int :=
  dateFormats.findSome? (fun cfg => runFmt cfg s)

/-!
System-message noise patterns.  ChatParser.is system message tries the
twenty-two SYSTEM_MESSAGE_PATTERNS with re.match under re.IGNORECASE; the
case-insensitivity is realized here by case-folding the content and writing
the pattern literals in lower case (all of them are ASCII).
-/

/-- Runs a matcher that must consume up to the end of the input, for the
patterns anchored with a dollar sign. -/
def mMatchEnd (f : Str → (Str → Option Unit) → Option Unit) (s : Str) : Bool :=
  (f s (fun r => if r = [] then some () else none)).isSome

/-- Runs a matcher with no end anchor. -/
def mMatchAny (f : Str → (Str → Option Unit) → Option Unit) (s : Str) : Bool :=
  (f s (fun _ => some ())).isSome

/-- Any character other than a newline: the regex dot. -/
def notNL (c : Char) : Bool := c ≠ '\n'

/-- The twenty-two SYSTEM_MESSAGE_PATTERNS of ChatParser, in source order,
as predicates on the case-folded content. -/
def systemMessagePatterns : List (Str → Bool) :=
  [ -- invisible mark, dot-star, added you, end
    mMatchEnd (fun s k => mChar (fun c => c = lrmChar) s (fun r =>
      mStar notNL r (fun r2 => mLit "added you".data r2 k))),
    -- invisible mark, dot-star, added, whitespace, optional at-sign, word or
    -- whitespace characters, end
    mMatchEnd (fun s k => mChar (fun c => c = lrmChar) s (fun r =>
      mStar notNL r (fun r2 => mLit "added".data r2 (fun r3 =>
      mPlus isSpaceChar r3 (fun r4 => mOpt (mLit ['@']) r4 (fun r5 =>
      mPlus (fun c => isWordChar c || isSpaceChar c) r5 k)))))),
    -- invisible mark, dot-star, created this group, end
    mMatchEnd (fun s k => mChar (fun c => c = lrmChar) s (fun r =>
      mStar notNL r (fun r2 => mLit "created this group".data r2 k))),
    -- dot-star, changed the group name to, dot-star
    mMatchAny (fun s k => mStar notNL s (fun r =>
      mLit "changed the group name to".data r k)),
    -- dot-star, changed the subject to, dot-star
    mMatchAny (fun s k => mStar notNL s (fun r =>
      mLit "changed the subject to".data r k)),
    -- dot-star, changed the group description, end
    mMatchEnd (fun s k => mStar notNL s (fun r =>
      mLit "changed the group description".data r k)),
    -- dot-star, changed this group apostrophe s icon, end
    mMatchEnd (fun s k => mStar notNL s (fun r =>
      mLit ("changed this group".data ++ [aposChar] ++ "s icon".data) r k)),
    -- invisible mark, dot-star, left, end
    mMatchEnd (fun s k => mChar (fun c => c = lrmChar) s (fun r =>
      mStar notNL r (fun r2 => mLit "left".data r2 k))),
    -- invisible mark, dot-star, removed, whitespace, dot-star
    mMatchAny (fun s k => mChar (fun c => c = lrmChar) s (fun r =>
      mStar notNL r (fun r2 => mLit "removed".data r2 (fun r3 =>
      mPlus isSpaceChar r3 k)))),
    -- dot-star, joined using this group apostrophe s invite link, end
    mMatchEnd (fun s k => mStar notNL s (fun r =>
      mLit ("joined using this group".data ++ [aposChar] ++ "s invite link".data) r k)),
    -- messages and calls are end-to-end encrypted, dot-star
    mMatchAny (mLit "messages and calls are end-to-end encrypted".data),
    -- this chat is with a business account, dot-star
    mMatchAny (mLit "this chat is with a business account".data),
    mMatchEnd (fun s k => mChar (fun c => c = lrmChar) s (fun r =>
      mLit "image omitted".data r k)),
    mMatchEnd (fun s k => mChar (fun c => c = lrmChar) s (fun r =>
      mLit "video omitted".data r k)),
    mMatchEnd (fun s k => mChar (fun c => c = lrmChar) s (fun r =>
      mLit "audio omitted".data r k)),
    mMatchEnd (fun s k => mChar (fun c => c = lrmChar) s (fun r =>
      mLit "document omitted".data r k)),
    mMatchEnd (fun s k => mChar (fun c => c = lrmChar) s (fun r =>
      mLit "sticker omitted".data r k)),
    mMatchEnd (fun s k => mChar (fun c => c = lrmChar) s (fun r =>
      mLit "gif omitted".data r k)),
    mMatchEnd (fun s k => mChar (fun c => c = lrmChar) s (fun r =>
      mLit "contact card omitted".data r k)),
    mMatchAny (fun s k => mChar (fun c => c = lrmChar) s (fun r =>
      mLit "location:".data r k)),
    mMatchAny (fun s k => mChar (fun c => c = lrmChar) s (fun r =>
      mLit "poll:".data r k)),
    mMatchAny (fun s k => mChar (fun c => c = lrmChar) s (fun r =>
      mLit "option:".data r k)) ]

/-- Embeds ChatParser.is system message: the content is a system message if
any of the patterns matches it case-insensitively. -/
def isSystemMessage (content : Str) : Bool :=
  systemMessagePatterns.any (fun p => p (lowerStr content))

/-!
Content cleaning and message segmentation.
-/

/-- The literal edited-annotation removed by clean content. -/
def editedMarker : Str := '<' :: ("This message was edited".data ++ ['>'])

/-- Embeds the re.sub call of ChatParser.clean content: an edited-annotation
suffix is removed together with one optional preceding invisible mark and any
preceding whitespace run. -/
def stripEditedSuffix (s : Str) : Str :=
  if editedMarker.isSuffixOf s then
    let s1 := s.take (s.length - editedMarker.length)
    let s2 := if s1.getLast? = some lrmChar then s1.dropLast else s1
    (s2.reverse.dropWhile isSpaceChar).reverse
  else s

/-- Embeds ChatParser.clean content: the edited suffix is removed, leading
invisible marks and spaces are stripped, and the result is whitespace
trimmed. -/
def cleanContent (s : Str) : Str :=
  pyStrip (pyLstrip [lrmChar, rlmChar, ' '] (stripEditedSuffix s))

/-- One chat utterance: the Message dataclass of the models module, with the
datetime timestamp as epoch seconds. -/
structure Message where
  timestamp : Int
  sender : Str
  content : Str
  messageId : Option Str := none
deriving DecidableEq, Repr

/-- Models str.split on a newline: the list of segments between newline
characters, with empty segments preserved. -/
def splitLines : Str → List Str
  | [] => [[]]
  | c :: rest =>
    if c = '\n' then [] :: splitLines rest
    else
      match splitLines rest with
      | l :: ls => (c :: l) :: ls
      | [] => [[c]]

/-- Appends the open message, when there is one, to the emitted list. -/
def flushCur (msgs : List Message) : Option Message → List Message
  | some m => msgs ++ [m]
  | none => msgs

/-- One iteration of the line loop of ChatParser.parse chat file.  The line
is stripped; an empty line is skipped; a header line first flushes the open
message, then opens a new one unless its cleaned content is a system message
or empty or its timestamp does not parse; any other non-empty line is
appended to the open message when one exists. -/
def parseStep (st : List Message × Option Message) (rawLine : Str) :
    List Message × Option Message :=
  let line := pyStrip rawLine
  if line = [] then st
  else
    match matchMessageLine line with
    | some (tsStr, sender, content0) =>
      let msgs := flushCur st.1 st.2
      let timestamp := parseTimestamp tsStr
      let content := cleanContent content0
      if isSystemMessage content then (msgs, none)
      else if content = [] then (msgs, none)
      else
        match timestamp with
        | some t => (msgs, some { timestamp := t, sender := pyStrip sender, content := content })
        | none => (msgs, none)
    | none =>
      match st.2 with
      | some m => (st.1, some { m with content := m.content ++ '\n' :: line })
      | none => st

/-- Embeds ChatParser.parse chat file: the content is split on newlines, the
lines are streamed through the step function, and the last open message is
flushed.  The user display name parameter is unused by the source body and
kept for signature fidelity. -/
def parseChatFile (fileContent : Str) (userDisplayName : Str) : List Message :=
  let st := (splitLines fileContent).foldl parseStep ([], none)
  flushCur st.1 st.2

/-!
Metrics calculator.  Python sorted is a stable sort; it is modelled by a
stable insertion sort on the timestamp key.  Python floats are modelled as
exact rationals.
-/

/-- Inserts a message after every already-placed message whose timestamp is
not larger, preserving the original order of equal keys as Python sorted
does. -/
def insertByTimestamp (m : Message) : List Message → List Message
  | [] => [m]
  | x :: xs =>
    if x.timestamp ≤ m.timestamp then x :: insertByTimestamp m xs
    else m :: x :: xs

/-- Models sorted(messages, key by timestamp): stable ascending sort. -/
def sortMessages (l : List Message) : List Message :=
  l.foldl (fun acc m => insertByTimestamp m acc) []

/-- The qualifying response deltas of calculate avg response time: over
adjacent pairs of the sorted list, when the sender changes and the delta in
hours is strictly below twenty-four, the delta is recorded. -/
def responseDeltas : List Message → List ℚ
  | m1 :: m2 :: rest =>
    (if m1.sender ≠ m2.sender ∧ ((m2.timestamp - m1.timestamp : ℤ) : ℚ) / 3600 < 24 then
      [((m2.timestamp - m1.timestamp : ℤ) : ℚ) / 3600]
    else []) ++ responseDeltas (m2 :: rest)
  | _ => []

/-- Embeds ChatParser.calculate avg response time: none for fewer than two
messages, none when no delta qualifies, otherwise the mean of the qualifying
deltas.  The user display name parameter is unused by the source body and
kept for signature fidelity. -/
def calculateAvgResponseTime (messages : List Message) (userDisplayName : Str) :
    Option ℚ :=
  if messages.length < 2 then none
  else
    let rts := responseDeltas (sortMessages messages)
    if rts = [] then none else some (rts.sum / (rts.length : ℚ))

/-- Dropping a prefix cannot lengthen a list; termination bound for the run
splitter below. -/
theorem dropWhile_length_le (p : Char → Bool) :
    ∀ l : Str, (l.dropWhile p).length ≤ l.length := by
  intro l
  induction l with
  | nil => exact Nat.le_refl _
  | cons c rest ih =>
    simp only [List.dropWhile]
    cases hp : p c
    · simp
    · exact Nat.le_succ_of_le ih

/-- Maximal runs of word characters of a string, the splitting underlying the
word-boundary anchors of the topic-extraction regex. -/
def wordRuns : Str → List Str
  | [] => []
  | c :: rest =>
    if isWordChar c then
      (c :: rest.takeWhile isWordChar) :: wordRuns (rest.dropWhile isWordChar)
    else wordRuns rest
termination_by s => s.length
decreasing_by
· exact Nat.lt_succ_of_le (dropWhile_length_le _ _)
· exact Nat.lt_succ_self _

/-- The stop-word set of extract common topics, transcribed from the source. -/
def stopWords : List Str :=
  [ "the".data, "a".data, "an".data, "and".data, "or".data, "but".data,
    "in".data, "on".data, "at".data, "to".data, "for".data, "of".data,
    "with".data, "by".data, "from".data, "as".data, "is".data, "was".data,
    "are".data, "were".data, "been".data, "be".data, "have".data, "has".data,
    "had".data, "do".data, "does".data, "did".data, "will".data, "would".data,
    "could".data, "should".data, "may".data, "might".data, "must".data,
    "can".data, "this".data, "that".data, "these".data, "those".data,
    "i".data, "you".data, "he".data, "she".data, "it".data, "we".data,
    "they".data, "what".data, "which".data, "who".data, "when".data,
    "where".data, "why".data, "how".data, "all".data, "each".data,
    "every".data, "both".data, "few".data, "more".data, "most".data,
    "other".data, "some".data, "such".data, "no".data, "nor".data,
    "not".data, "only".data, "own".data, "same".data, "so".data,
    "than".data, "too".data, "very".data, "just".data ]

/-- Tokens contributed by one message content: the findall of four-or-more
letter words on the lower-cased content, with stop words removed. -/
def messageTokens (content : Str) : List Str :=
  ((wordRuns (lowerStr content)).filter
    (fun w => w.all (fun c => c.isAlpha) && 4 ≤ w.length)).filter
    (fun w => !(stopWords.contains w))

/-- Counter: occurrence counts in first-encounter key order. -/
def bumpCount : List (Str × Nat) → Str → List (Str × Nat)
  | [], w => [(w, 1)]
  | (k, n) :: rest, w =>
    if k = w then (k, n + 1) :: rest else (k, n) :: bumpCount rest w

/-- Counts of a token list, keys in first-encounter order as a Python
Counter keeps them. -/
def countTokens (ws : List Str) : List (Str × Nat) :=
  ws.foldl bumpCount []

/-- Stable descending insertion on the count, matching the tie behaviour of
most common: equal counts keep their first-encounter order. -/
def insertDescByCount (x : Str × Nat) : List (Str × Nat) → List (Str × Nat)
  | [] => [x]
  | y :: ys =>
    if x.2 ≤ y.2 then y :: insertDescByCount x ys
    else x :: y :: ys

/-- Stable descending sort on the count. -/
def sortDescByCount (l : List (Str × Nat)) : List (Str × Nat) :=
  l.foldl (fun acc x => insertDescByCount x acc) []

/-- Embeds ChatParser.extract common topics: token frequencies over all
messages, the five most common tokens, most frequent first. -/
def extractCommonTopics (messages : List Message) (topN : Nat := 5) : List Str :=
  let allWords := (messages.map (fun m => messageTokens m.content)).flatten
  if allWords = [] then []
  else ((sortDescByCount (countTokens allWords)).take topN).map Prod.fst

/-- ConversationMetrics dataclass of the models module. -/
structure ConversationMetrics where
  total_messages : Nat
  user_messages : Nat
  partner_messages : Nat
  reciprocity : ℚ
  avg_response_time : Option ℚ := none
  last_message_time : Option Int := none
  days_since_contact : Option Int := none
  common_topics : List Str := []
deriving DecidableEq, Repr

/-- Embeds ChatParser.calculate metrics.  The call to datetime dot now is
modelled by the explicit now parameter, in epoch seconds; the days attribute
of a Python timedelta is the floor of the elapsed seconds divided by the
seconds of a day. -/
def calculateMetrics (now : Int) (messages : List Message) (userDisplayName : Str) :
    ConversationMetrics :=
  let total := messages.length
  let user := (messages.filter (fun m => m.sender == userDisplayName)).length
  let partner := total - user
  let reciprocity : ℚ :=
    if 0 < total then ((min user partner : Nat) : ℚ) / ((total : ℚ) / 2) else 0
  let lastDays : Option Int × Option Int :=
    match (sortMessages messages).getLast? with
    | some m => (some m.timestamp, some (Int.fdiv (now - m.timestamp) 86400))
    | none => (none, none)
  { total_messages := total
    user_messages := user
    partner_messages := partner
    reciprocity := min reciprocity 1
    avg_response_time := calculateAvgResponseTime messages userDisplayName
    last_message_time := lastDays.1
    days_since_contact := lastDays.2
    common_topics := extractCommonTopics messages }

/-!
Conversation aggregate, relationship health, and the conversation builders.
-/

/-- Conversation aggregate of the models module (the fields the engine
populates). -/
structure Conversation where
  userId : Str
  partnerName : Str
  partnerId : Str
  messages : List Message
  metrics : ConversationMetrics
  category : Str
deriving DecidableEq, Repr

/-- Embeds Conversation.get relationship health as a function of the
days-since-contact value: absent maps to healthy, then the thresholds sixty,
thirty and fourteen are tested in order. -/
def getRelationshipHealth (daysSinceContact : Option Int) : Str :=
  match daysSinceContact with
  | none => "healthy".data
  | some d =>
    if 60 < d then "wilted".data
    else if 30 < d then "dormant".data
    else if 14 < d then "attention".data
    else "healthy".data

/-- The method form on the aggregate. -/
def Conversation.relationshipHealth (c : Conversation) : Str :=
  getRelationshipHealth c.metrics.days_since_contact

/-- Embeds ChatParser.generate partner id: user id, underscore, and the
lower-cased partner name with spaces replaced by underscores. -/
def generatePartnerId (userId partnerName : Str) : Str :=
  userId ++ '_' :: (lowerStr partnerName).map (fun c => if c = ' ' then '_' else c)

/-- Embeds ChatParser.categorize conversation: always the default category. -/
def categorizeConversation (metrics : ConversationMetrics) : Str :=
  "friends".data

/-- The Conversation construction shared by both builder paths of the
source. -/
def buildConversation (userId : Str) (now : Int) (partnerName : Str)
    (msgs : List Message) (userDisplayName : Str) : Conversation :=
  let metrics := calculateMetrics now msgs userDisplayName
  { userId := userId
    partnerName := partnerName
    partnerId := generatePartnerId userId partnerName
    messages := msgs
    metrics := metrics
    category := categorizeConversation metrics }

/-- Embeds the sender cleaning of the builders: lstrip of the tilde, the two
mojibake characters committed in the source, and the space, followed by a
whitespace trim. -/
def cleanSenderName (s : Str) : Str :=
  pyStrip (pyLstrip ['~', mojAChar, mojMacronChar, ' '] s)

/-- The four group-title patterns of create conversations from group, in
source order, on the case-folded name: board followed somewhere by four
digits, and the contained words group, chat and team. -/
def groupNamePatterns : List (Str → Bool) :=
  [ mMatchAny (fun s k => mStar notNL s (fun r => mLit "board".data r (fun r2 =>
      mStar notNL r2 (fun r3 => mChar isDigitChar r3 (fun r4 =>
      mChar isDigitChar r4 (fun r5 => mChar isDigitChar r5 (fun r6 =>
      mChar isDigitChar r6 k))))))),
    mMatchAny (fun s k => mStar notNL s (fun r => mLit "group".data r k)),
    mMatchAny (fun s k => mStar notNL s (fun r => mLit "chat".data r k)),
    mMatchAny (fun s k => mStar notNL s (fun r => mLit "team".data r k)) ]

/-- Tests the group-title heuristics case-insensitively. -/
def isGroupName (s : Str) : Bool :=
  groupNamePatterns.any (fun p => p (lowerStr s))

/-- Participant resolution of create conversations from group: the distinct
senders without the user, cleaned, with empty names and the literal you
discarded, then the group-title-like names discarded.  Python sets are
modelled as duplicate-free lists; no proved statement depends on their
iteration order. -/
def groupPartners (messages : List Message) (userDisplayName : Str) : List Str :=
  let allSenders := ((messages.map Message.sender).dedup).filter
    (fun s => s != userDisplayName)
  let cleanSenders := ((allSenders.map cleanSenderName).filter
    (fun c => c != [] && c != "You".data && c != "you".data)).dedup
  cleanSenders.filter (fun s => !(isGroupName s))

/-- Embeds ChatParser.create conversations from group: one Conversation per
resolved partner, holding exactly the messages whose sender is literally the
partner name or the user, skipping partners with no messages. -/
def createConversationsFromGroup (userId : Str) (now : Int)
    (messages : List Message) (userDisplayName : Str) : List Conversation :=
  (groupPartners messages userDisplayName).filterMap (fun partnerName =>
    let partnerMessages := messages.filter
      (fun m => m.sender == partnerName || m.sender == userDisplayName)
    if 0 < partnerMessages.length then
      some (buildConversation userId now partnerName partnerMessages userDisplayName)
    else none)

/-- Participant resolution of create conversation: like the group resolver
but without the you filter and without the group-title filter. -/
def ccCleanSenders (messages : List Message) (userDisplayName : Str) : List Str :=
  let senders := ((messages.map Message.sender).dedup).filter
    (fun s => s != userDisplayName)
  ((senders.map cleanSenderName).filter (fun c => c != [])).dedup

/-- Embeds ChatParser.create conversation: with a partner-name override a
Conversation is always built over the whole message list; otherwise the
cleaned non-user sender set decides: empty yields the placeholder partner
Unknown, a singleton yields that partner, and two or more yield none, the
signal that the group path must be used. -/
def createConversation (userId : Str) (now : Int) (messages : List Message)
    (userDisplayName : Str) (partnerNameOverride : Option Str) : Option Conversation :=
  match partnerNameOverride with
  | some p => some (buildConversation userId now p messages userDisplayName)
  | none =>
    match ccCleanSenders messages userDisplayName with
    | [] => some (buildConversation userId now "Unknown".data messages userDisplayName)
    | [p] => some (buildConversation userId now p messages userDisplayName)
    | _ => none

/-- First line of a content string: the prefix up to the first newline.  A
message is opened from a header line, so its first line is the cleaned
header content, later continuations being appended after newlines. -/
def firstLine (s : Str) : Str := s.takeWhile notNL

/-!
General helper lemmas.
-/

/-- Inversion of the backtracking alternative. -/
theorem orElse_eq_some {α : Type} (x : Option α) (f : Unit → Option α) (r : α) :
    x.orElse f = some r ↔ x = some r ∨ (x = none ∧ f () = some r) := by
  cases x <;> simp [Option.orElse]

/-- Inserting keeps exactly the old elements plus the new one. -/
theorem mem_insertByTimestamp (m a : Message) :
    ∀ l : List Message, a ∈ insertByTimestamp m l ↔ a = m ∨ a ∈ l := by
  intro l
  induction l with
  | nil => simp [insertByTimestamp]
  | cons x xs ih =>
    by_cases h : x.timestamp ≤ m.timestamp
    · simp only [insertByTimestamp, if_pos h, List.mem_cons, ih]
      tauto
    · simp only [insertByTimestamp, if_neg h, List.mem_cons]

/-- Inserting is a permutation of consing. -/
theorem insertByTimestamp_perm (m : Message) :
    ∀ l : List Message, (insertByTimestamp m l).Perm (m :: l) := by
  intro l
  induction l with
  | nil => simp [insertByTimestamp]
  | cons x xs ih =>
    by_cases h : x.timestamp ≤ m.timestamp
    · simp only [insertByTimestamp, if_pos h]
      exact (ih.cons x).trans (List.Perm.swap m x xs)
    · simp [insertByTimestamp, h]

/-- Inserting preserves ascending pairwise order on the timestamp. -/
theorem insertByTimestamp_pairwise (m : Message) :
    ∀ l : List Message, l.Pairwise (fun a b => a.timestamp ≤ b.timestamp) →
      (insertByTimestamp m l).Pairwise (fun a b => a.timestamp ≤ b.timestamp) := by
  intro l
  induction l with
  | nil => simp [insertByTimestamp]
  | cons x xs ih =>
    intro hp
    rw [List.pairwise_cons] at hp
    by_cases h : x.timestamp ≤ m.timestamp
    · simp only [insertByTimestamp, if_pos h]
      rw [List.pairwise_cons]
      refine ⟨?_, ih hp.2⟩
      intro b hb
      rcases (mem_insertByTimestamp m b xs).1 hb with hbm | hbx
      · exact hbm ▸ h
      · exact hp.1 b hbx
    · simp only [insertByTimestamp, if_neg h]
      have hmx : m.timestamp ≤ x.timestamp := le_of_lt (lt_of_not_le h)
      rw [List.pairwise_cons]
      constructor
      · intro b hb
        rcases List.mem_cons.1 hb with rfl | hbx
        · exact hmx
        · exact le_trans hmx (hp.1 b hbx)
      · rw [List.pairwise_cons]
        exact hp

/-- Folding the insertion over a list permutes the accumulator and the
input. -/
theorem foldl_insert_perm : ∀ l acc : List Message,
    (l.foldl (fun acc m => insertByTimestamp m acc) acc).Perm (acc ++ l) := by
  intro l
  induction l with
  | nil => intro acc; simp
  | cons m t ih =>
    intro acc
    simp only [List.foldl_cons]
    refine (ih (insertByTimestamp m acc)).trans ?_
    refine (List.Perm.append_right t (insertByTimestamp_perm m acc)).trans ?_
    simpa using (@List.perm_middle _ m acc t).symm

/-- The stable sort is a permutation of its input. -/
theorem sortMessages_perm (l : List Message) : (sortMessages l).Perm l := by
  simpa [sortMessages] using foldl_insert_perm l []

/-- Folding the insertion preserves pairwise ascending order. -/
theorem foldl_insert_pairwise : ∀ l acc : List Message,
    acc.Pairwise (fun a b => a.timestamp ≤ b.timestamp) →
    (l.foldl (fun acc m => insertByTimestamp m acc) acc).Pairwise
      (fun a b => a.timestamp ≤ b.timestamp) := by
  intro l
  induction l with
  | nil => intro acc h; simpa using h
  | cons m t ih =>
    intro acc h
    simp only [List.foldl_cons]
    exact ih _ (insertByTimestamp_pairwise m acc h)

/-- The stable sort is ascending on the timestamp. -/
theorem sortMessages_pairwise (l : List Message) :
    (sortMessages l).Pairwise (fun a b => a.timestamp ≤ b.timestamp) := by
  exact foldl_insert_pairwise l [] (by simp)

/-- A member of the getLast? of a list is a member of the list. -/
theorem getLast?_mem_self :
    ∀ (l : List Message) (y : Message), l.getLast? = some y → y ∈ l := by
  intro l y h
  obtain ⟨hne, heq⟩ := List.mem_getLast?_eq_getLast (l := l) (x := y) h
  exact heq ▸ List.getLast_mem hne

/-- The last element of an ascending list bounds every element. -/
theorem pairwise_le_getLast :
    ∀ l : List Message, l.Pairwise (fun a b => a.timestamp ≤ b.timestamp) →
      ∀ x ∈ l, ∀ y, l.getLast? = some y → x.timestamp ≤ y.timestamp := by
  intro l
  induction l with
  | nil => intro _ x hx; exact absurd hx (List.not_mem_nil x)
  | cons a t ih =>
    intro hp x hx y hy
    rw [List.pairwise_cons] at hp
    cases t with
    | nil =>
      simp only [List.getLast?_singleton, Option.some.injEq] at hy
      rcases List.mem_singleton.1 hx with rfl
      exact hy ▸ le_refl _
    | cons b t2 =>
      rw [List.getLast?_cons_cons] at hy
      have hymem : y ∈ b :: t2 := getLast?_mem_self _ _ hy
      rcases List.mem_cons.1 hx with rfl | hxt
      · exact hp.1 y hymem
      · exact ih hp.2 x hxt y hy

/-- When every element of a list is sent to some by the function, filterMap
preserves the length. -/
theorem length_filterMap_of_forall_some {α β : Type} (f : α → Option β) :
    ∀ l : List α, (∀ x ∈ l, ∃ y, f x = some y) →
      (l.filterMap f).length = l.length := by
  intro l
  induction l with
  | nil => intro _; rfl
  | cons a t ih =>
    intro h
    obtain ⟨y, hy⟩ := h a (List.mem_cons_self a t)
    rw [List.filterMap_cons, hy]
    simp only [List.length_cons]
    rw [ih (fun x hx => h x (List.mem_cons_of_mem a hx))]

/-- The partner-name field of a built conversation. -/
theorem buildConversation_partnerName (userId : Str) (now : Int) (p : Str)
    (msgs : List Message) (udn : Str) :
    (buildConversation userId now p msgs udn).partnerName = p := rfl

/-- The messages field of a built conversation. -/
theorem buildConversation_messages (userId : Str) (now : Int) (p : Str)
    (msgs : List Message) (udn : Str) :
    (buildConversation userId now p msgs udn).messages = msgs := rfl

/-- Membership in the resolved partner set of the group builder. -/
theorem mem_groupPartners (messages : List Message) (u p : Str) :
    p ∈ groupPartners messages u ↔
      ((∃ s0 ∈ messages.map Message.sender, s0 ≠ u ∧ cleanSenderName s0 = p) ∧
        p ≠ [] ∧ p ≠ "You".data ∧ p ≠ "you".data) ∧ isGroupName p = false := by
  simp only [groupPartners, List.mem_filter, List.mem_dedup, List.mem_map,
    Bool.and_eq_true, bne_iff_ne, ne_eq, Bool.not_eq_true']
  tauto

/-- Membership in the output of the group builder: a conversation comes from
a resolved partner with a non-empty filtered message list and is the built
conversation over exactly that filtered list. -/
theorem mem_createConversationsFromGroup (userId : Str) (now : Int)
    (messages : List Message) (u : Str) (c : Conversation) :
    c ∈ createConversationsFromGroup userId now messages u ↔
      ∃ p ∈ groupPartners messages u,
        0 < (messages.filter (fun m => m.sender == p || m.sender == u)).length ∧
        c = buildConversation userId now p
              (messages.filter (fun m => m.sender == p || m.sender == u)) u := by
  simp only [createConversationsFromGroup, List.mem_filterMap]
  constructor
  · rintro ⟨p, hp, hsome⟩
    by_cases hpos : 0 < (messages.filter (fun m => m.sender == p || m.sender == u)).length
    · rw [if_pos hpos] at hsome
      exact ⟨p, hp, hpos, (Option.some.injEq _ _ ▸ hsome).symm⟩
    · rw [if_neg hpos] at hsome
      exact absurd hsome (by simp)
  · rintro ⟨p, hp, hpos, rfl⟩
    exact ⟨p, hp, by rw [if_pos hpos]⟩

/-!
Claim theorems.
-/

/-- C1: the relationship-health classification maps an absent
days-since-contact to healthy, more than sixty days to wilted, more than
thirty to dormant, more than fourteen to attention, and everything else to
healthy; in particular fourteen days is healthy, fifteen attention,
thirty-one dormant and sixty-one wilted. -/
theorem c1_health_thresholds :
    getRelationshipHealth none = "healthy".data ∧
    (∀ d : Int, getRelationshipHealth (some d) =
      if 60 < d then "wilted".data
      else if 30 < d then "dormant".data
      else if 14 < d then "attention".data
      else "healthy".data) ∧
    getRelationshipHealth (some 14) = "healthy".data ∧
    getRelationshipHealth (some 15) = "attention".data ∧
    getRelationshipHealth (some 31) = "dormant".data ∧
    getRelationshipHealth (some 61) = "wilted".data :=
  ⟨rfl, fun _ => rfl, by decide, by decide, by decide, by decide⟩

/-- C9: when the cleaned non-user sender set of create conversation has two
or more names and no partner-name override is given, the result is none, the
null signal telling the caller to use the group-splitting path. -/
theorem c9_group_signal (userId : Str) (now : Int) (messages : List Message)
    (userDisplayName : Str)
    (h : 2 ≤ (ccCleanSenders messages userDisplayName).length) :
    createConversation userId now messages userDisplayName none = none := by
  simp only [createConversation]
  cases hl : ccCleanSenders messages userDisplayName with
  | nil => rw [hl] at h; simp at h
  | cons a t =>
    cases t with
    | nil => rw [hl] at h; simp at h
    | cons b t2 => rfl

/-- Sample two-partner message list. -/
def demoTwoPartners : List Message :=
  [ { timestamp := 0, sender := "Alice".data, content := "hi there".data },
    { timestamp := 10, sender := "Bobby".data, content := "hello friend".data } ]

/-- Witness for C9 at a concrete two-partner input. -/
theorem c9_group_signal_witness :
    2 ≤ (ccCleanSenders demoTwoPartners "Me".data).length ∧
    createConversation "u1".data 0 demoTwoPartners "Me".data none = none :=
  ⟨by decide, c9_group_signal "u1".data 0 demoTwoPartners "Me".data (by decide)⟩

/-- C7 counterexample: a file whose resolved partner set is empty (only the
user speaks) makes create conversation return a placeholder Conversation
with partner name Unknown, not an empty result, refuting the claim that the
conversation-building operations yield zero Conversations in this case. -/
def demoUserOnly : List Message :=
  [ { timestamp := 0, sender := "Me".data, content := "hi there".data } ]

/-- C7 counterexample theorem: the resolved partner sets are empty, yet
create conversation yields a placeholder Unknown conversation. -/
theorem c7_counterexample :
    ccCleanSenders demoUserOnly "Me".data = [] ∧
    groupPartners demoUserOnly "Me".data = [] ∧
    createConversation "u1".data 0 demoUserOnly "Me".data none ≠ none ∧
    (createConversation "u1".data 0 demoUserOnly "Me".data none).map
      Conversation.partnerName = some "Unknown".data := by
  refine ⟨by decide, by decide, ?_, ?_⟩
  · intro h
    exact absurd h (by decide)
  · decide

/-- C7 amended: with an empty resolved partner set, the group builder yields
zero Conversations, while create conversation yields a placeholder
Conversation named Unknown; neither raises. -/
theorem c7_empty_partner_set (userId : Str) (now : Int) (messages : List Message)
    (userDisplayName : Str) :
    (groupPartners messages userDisplayName = [] →
      createConversationsFromGroup userId now messages userDisplayName = []) ∧
    (ccCleanSenders messages userDisplayName = [] →
      createConversation userId now messages userDisplayName none =
        some (buildConversation userId now "Unknown".data messages userDisplayName)) := by
  constructor
  · intro h
    simp only [createConversationsFromGroup, h, List.filterMap_nil]
  · intro h
    simp only [createConversation, h]

/-- The reciprocity field of the computed metrics, unfolded. -/
theorem calculateMetrics_reciprocity (now : Int) (msgs : List Message) (u : Str) :
    (calculateMetrics now msgs u).reciprocity =
      min (if 0 < msgs.length then
            ((min ((msgs.filter (fun m => m.sender == u)).length)
                  (msgs.length - (msgs.filter (fun m => m.sender == u)).length) : Nat) : ℚ) /
              ((msgs.length : ℚ) / 2)
          else 0) 1 := rfl

/-- The count fields of the computed metrics, unfolded. -/
theorem calculateMetrics_counts (now : Int) (msgs : List Message) (u : Str) :
    (calculateMetrics now msgs u).total_messages = msgs.length ∧
    (calculateMetrics now msgs u).user_messages =
      (msgs.filter (fun m => m.sender == u)).length ∧
    (calculateMetrics now msgs u).partner_messages =
      msgs.length - (msgs.filter (fun m => m.sender == u)).length :=
  ⟨rfl, rfl, rfl⟩

/-- C2: reciprocity is zero on an empty message set and otherwise the capped
balance ratio; it always lies between zero and one, and it is exactly one
when the user and partner counts agree and are positive. -/
theorem c2_reciprocity_invariant (now : Int) (msgs : List Message) (u : Str) :
    ((calculateMetrics now msgs u).total_messages = 0 →
      (calculateMetrics now msgs u).reciprocity = 0) ∧
    (0 < (calculateMetrics now msgs u).total_messages →
      (calculateMetrics now msgs u).reciprocity =
        min 1 (((min (calculateMetrics now msgs u).user_messages
                     (calculateMetrics now msgs u).partner_messages : Nat) : ℚ) /
               (((calculateMetrics now msgs u).total_messages : ℚ) / 2))) ∧
    0 ≤ (calculateMetrics now msgs u).reciprocity ∧
    (calculateMetrics now msgs u).reciprocity ≤ 1 ∧
    ((calculateMetrics now msgs u).user_messages =
        (calculateMetrics now msgs u).partner_messages ∧
      0 < (calculateMetrics now msgs u).user_messages →
      (calculateMetrics now msgs u).reciprocity = 1) := by
  obtain ⟨htot, huser, hpart⟩ := calculateMetrics_counts now msgs u
  have hUT : (msgs.filter (fun m => m.sender == u)).length ≤ msgs.length :=
    List.length_filter_le _ _
  refine ⟨?_, ?_, ?_, ?_, ?_⟩
  · intro h
    rw [htot] at h
    rw [calculateMetrics_reciprocity, h]
    norm_num
  · intro h
    rw [htot] at h
    rw [calculateMetrics_reciprocity, huser, hpart, htot, if_pos h, min_comm]
  · rw [calculateMetrics_reciprocity]
    refine le_min ?_ zero_le_one
    split
    · positivity
    · exact le_refl 0
  · rw [calculateMetrics_reciprocity]
    exact min_le_right _ _
  · rintro ⟨heq, hpos⟩
    rw [huser, hpart] at heq
    rw [huser] at hpos
    have hT2 : msgs.length =
        (msgs.filter (fun m => m.sender == u)).length +
        (msgs.filter (fun m => m.sender == u)).length := by omega
    rw [calculateMetrics_reciprocity, ← heq, min_self, if_pos (by omega)]
    have hUpos : (0 : ℚ) < ((msgs.filter (fun m => m.sender == u)).length : ℚ) := by
      exact_mod_cast hpos
    rw [hT2]
    push_cast
    have hval : (((msgs.filter (fun m => m.sender == u)).length : ℚ)) /
        ((((msgs.filter (fun m => m.sender == u)).length : ℚ) +
          ((msgs.filter (fun m => m.sender == u)).length : ℚ)) / 2) = 1 := by
      rw [div_eq_one_iff_eq (by positivity)]
      ring
    rw [hval]
    exact min_self 1

/-- Witness for C2 at the concrete two-partner input. -/
theorem c2_reciprocity_invariant_witness :
    0 < (calculateMetrics 0 demoTwoPartners "Alice".data).total_messages ∧
    (calculateMetrics 0 demoTwoPartners "Alice".data).reciprocity =
      min 1 (((min (calculateMetrics 0 demoTwoPartners "Alice".data).user_messages
                   (calculateMetrics 0 demoTwoPartners "Alice".data).partner_messages : Nat) : ℚ) /
             (((calculateMetrics 0 demoTwoPartners "Alice".data).total_messages : ℚ) / 2)) :=
  ⟨by decide,
   (c2_reciprocity_invariant 0 demoTwoPartners "Alice".data).2.1 (by decide)⟩

/-- C10: the per-partner filter of the group builder compares the raw sender
field with the cleaned partner name by literal equality, so when a sender
name changes under cleaning, the conversation created under the cleaned name
exists (given a user message) but carries only messages of the user and none
of that sender. -/
theorem c10_literal_equality_filter (userId : Str) (now : Int)
    (messages : List Message) (userDisplayName s : Str)
    (hclean : cleanSenderName s ≠ s)
    (hall : ∀ m ∈ messages, m.sender = s ∨ m.sender = userDisplayName)
    (hsu : s ≠ userDisplayName)
    (hmem : ∃ m ∈ messages, m.sender = s)
    (huser : ∃ m ∈ messages, m.sender = userDisplayName)
    (hne : cleanSenderName s ≠ [])
    (hyou1 : cleanSenderName s ≠ "You".data)
    (hyou2 : cleanSenderName s ≠ "you".data)
    (hgrp : isGroupName (cleanSenderName s) = false) :
    (∃ c ∈ createConversationsFromGroup userId now messages userDisplayName,
        c.partnerName = cleanSenderName s) ∧
    (∀ c ∈ createConversationsFromGroup userId now messages userDisplayName,
        c.partnerName = cleanSenderName s →
        ∀ m ∈ c.messages, m.sender = userDisplayName ∧ m.sender ≠ s) := by
  obtain ⟨m0, hm0mem, hm0s⟩ := hmem
  obtain ⟨mu, hmumem, hmuu⟩ := huser
  have hppart : cleanSenderName s ∈ groupPartners messages userDisplayName := by
    rw [mem_groupPartners]
    exact ⟨⟨⟨s, hm0s ▸ List.mem_map_of_mem Message.sender hm0mem, hsu, rfl⟩,
      hne, hyou1, hyou2⟩, hgrp⟩
  have hfilter_pos :
      0 < (messages.filter
        (fun m => m.sender == cleanSenderName s || m.sender == userDisplayName)).length := by
    apply List.length_pos_of_mem (a := mu)
    rw [List.mem_filter]
    exact ⟨hmumem, by simp [hmuu]⟩
  constructor
  · refine ⟨buildConversation userId now (cleanSenderName s)
      (messages.filter
        (fun m => m.sender == cleanSenderName s || m.sender == userDisplayName))
      userDisplayName, ?_, rfl⟩
    rw [mem_createConversationsFromGroup]
    exact ⟨cleanSenderName s, hppart, hfilter_pos, rfl⟩
  · intro c hc hcp m hmc
    rw [mem_createConversationsFromGroup] at hc
    obtain ⟨p, hp, hpos, rfl⟩ := hc
    rw [buildConversation_partnerName] at hcp
    subst hcp
    rw [buildConversation_messages] at hmc
    rw [List.mem_filter] at hmc
    obtain ⟨hmmem, hcond⟩ := hmc
    simp only [Bool.or_eq_true, beq_iff_eq] at hcond
    have hsender : m.sender = cleanSenderName s ∨ m.sender = userDisplayName := hcond
    rcases hall m hmmem with hms | hmu2
    · rcases hsender with h | h
      · exact absurd (hms ▸ h).symm hclean
      · exact absurd (hms ▸ h) hsu
    · exact ⟨hmu2, fun hcontra => hsu (hcontra ▸ hmu2 ▸ rfl)⟩

/-- Sample list where the partner sender carries a tilde admin marker. -/
def demoTildePartner : List Message :=
  [ { timestamp := 0, sender := ('~' :: "Alice".data), content := "hi there".data },
    { timestamp := 10, sender := "Me".data, content := "hello friend".data } ]

/-- Witness for C10 at the tilde-marked input. -/
theorem c10_literal_equality_filter_witness :
    cleanSenderName ('~' :: "Alice".data) ≠ ('~' :: "Alice".data) ∧
    (∃ c ∈ createConversationsFromGroup "u1".data 0 demoTildePartner "Me".data,
        c.partnerName = cleanSenderName ('~' :: "Alice".data)) :=
  ⟨by decide,
   (c10_literal_equality_filter "u1".data 0 demoTildePartner "Me".data
      ('~' :: "Alice".data) (by decide)
      (by intro m hm; fin_cases hm <;> simp [demoTildePartner])
      (by decide)
      ⟨demoTildePartner.head (by decide), by decide⟩
      ⟨demoTildePartner.get ⟨1, by decide⟩, by decide⟩
      (by decide) (by decide) (by decide) (by decide)).1⟩

/-- Qualifying response deltas written in the words of the specification:
over the adjacent pairs of the ascending list, when the senders differ and
the gap in hours is strictly below twenty-four, the gap is recorded. -/
def specResponseDeltas (l : List Message) : List ℚ :=
  (l.zip l.tail).filterMap (fun p =>
    if p.1.sender ≠ p.2.sender ∧ ((p.2.timestamp - p.1.timestamp : ℤ) : ℚ) / 3600 < 24
    then some (((p.2.timestamp - p.1.timestamp : ℤ) : ℚ) / 3600) else none)

/-- The recursive delta collector of the code coincides with the
specification formulation over adjacent pairs. -/
theorem responseDeltas_eq_spec :
    ∀ l : List Message, responseDeltas l = specResponseDeltas l := by
  intro l
  induction l with
  | nil => rfl
  | cons m1 rest ih =>
    cases rest with
    | nil => rfl
    | cons m2 rest2 =>
      simp only [responseDeltas] at ih ⊢
      rw [ih]
      simp only [specResponseDeltas, List.tail_cons, List.zip_cons_cons,
        List.filterMap_cons]
      by_cases h : m1.sender ≠ m2.sender ∧
          ((m2.timestamp - m1.timestamp : ℤ) : ℚ) / 3600 < 24
      · rw [if_pos h, if_pos h]
        rfl
      · rw [if_neg h, if_neg h]
        rfl

/-- Sample pair with a thirty-hour gap and different senders. -/
def demoThirtyHourGap : List Message :=
  [ { timestamp := 0, sender := "Aaa".data, content := "hi".data },
    { timestamp := 108000, sender := "Bbb".data, content := "yo".data } ]

/-- Sample pair with a two-hour gap and different senders: exactly one
qualifying delta. -/
def demoOneDelta : List Message :=
  [ { timestamp := 0, sender := "Aaa".data, content := "hi".data },
    { timestamp := 7200, sender := "Bbb".data, content := "yo".data } ]

/-- C4 counterexample: the thirty-hour gap contributes nothing and the
two-hour gap does, but with exactly one qualifying delta, fewer than two,
the code already returns the average rather than absent, refuting the
claimed two-delta threshold. -/
theorem c4_counterexample :
    responseDeltas (sortMessages demoThirtyHourGap) = [] ∧
    calculateAvgResponseTime demoThirtyHourGap "Aaa".data = none ∧
    (responseDeltas (sortMessages demoOneDelta)).length = 1 ∧
    calculateAvgResponseTime demoOneDelta "Aaa".data = some 2 := by
  have hsort30 : sortMessages demoThirtyHourGap = demoThirtyHourGap := by decide
  have hsort2 : sortMessages demoOneDelta = demoOneDelta := by decide
  have h30 : responseDeltas demoThirtyHourGap = [] := by
    simp only [demoThirtyHourGap, responseDeltas, List.append_nil]
    rw [if_neg]
    intro hc
    have := hc.2
    norm_num at this
  have h2 : responseDeltas demoOneDelta = [2] := by
    simp only [demoOneDelta, responseDeltas, List.append_nil]
    rw [if_pos]
    · norm_num
    · exact ⟨by decide, by norm_num⟩
  refine ⟨by rw [hsort30, h30], ?_, by rw [hsort2, h2]; rfl, ?_⟩
  · simp only [calculateAvgResponseTime, hsort30, h30]
    norm_num [demoThirtyHourGap]
  · simp only [calculateAvgResponseTime, hsort2, h2]
    norm_num [demoOneDelta]

/-- C4 amended: the average response time is the mean of the deltas over
adjacent different-sender pairs of the ascending sort that lie strictly
below twenty-four hours; it is absent exactly when the list has fewer than
two messages or no delta qualifies, and present as soon as one delta
qualifies. -/
theorem c4_avg_response_time (messages : List Message) (udn : Str) :
    calculateAvgResponseTime messages udn =
      (if 2 ≤ messages.length ∧ specResponseDeltas (sortMessages messages) ≠ [] then
        some ((specResponseDeltas (sortMessages messages)).sum /
              ((specResponseDeltas (sortMessages messages)).length : ℚ))
      else none) ∧
    (sortMessages messages).Pairwise (fun a b => a.timestamp ≤ b.timestamp) ∧
    (sortMessages messages).Perm messages := by
  refine ⟨?_, sortMessages_pairwise messages, sortMessages_perm messages⟩
  simp only [calculateAvgResponseTime, responseDeltas_eq_spec]
  by_cases h2 : messages.length < 2
  · rw [if_pos h2, if_neg (fun hc => by omega)]
  · rw [if_neg h2]
    by_cases hr : specResponseDeltas (sortMessages messages) = []
    · rw [if_pos hr, if_neg (fun hc => hc.2 hr)]
    · rw [if_neg hr, if_pos ⟨by omega, hr⟩]

/-- The recency fields of the computed metrics, unfolded. -/
theorem calculateMetrics_recency (now : Int) (msgs : List Message) (u : Str) :
    (calculateMetrics now msgs u).last_message_time =
      (match (sortMessages msgs).getLast? with
       | some m => (some m.timestamp, some (Int.fdiv (now - m.timestamp) 86400))
       | none => ((none : Option Int), (none : Option Int))).1 ∧
    (calculateMetrics now msgs u).days_since_contact =
      (match (sortMessages msgs).getLast? with
       | some m => (some m.timestamp, some (Int.fdiv (now - m.timestamp) 86400))
       | none => ((none : Option Int), (none : Option Int))).2 :=
  ⟨rfl, rfl⟩

/-- Sample single message two days in the future of the reference instant
zero. -/
def demoFutureMessage : List Message :=
  [ { timestamp := 172800, sender := "Aaa".data, content := "hello".data } ]

/-- C6 counterexample: with a latest message two days after now, the
days-since-contact is the negative value minus two, refuting the claimed
non-negativity. -/
theorem c6_counterexample :
    (calculateMetrics 0 demoFutureMessage "Me".data).days_since_contact = some (-2) ∧
    ¬ (0 ≤ (-2 : Int)) :=
  ⟨by decide, by decide⟩

/-- C6 amended: on an empty list both recency fields are absent; otherwise
the last message time is a maximal timestamp of the list and the
days-since-contact is the floor of the elapsed seconds to now divided by a
day, an integer that is non-negative whenever the latest message does not
lie in the future of now. -/
theorem c6_last_contact (now : Int) (messages : List Message) (udn : Str) :
    (messages = [] →
      (calculateMetrics now messages udn).last_message_time = none ∧
      (calculateMetrics now messages udn).days_since_contact = none) ∧
    (messages ≠ [] →
      ∃ t, (calculateMetrics now messages udn).last_message_time = some t ∧
        (∃ m ∈ messages, m.timestamp = t) ∧
        (∀ m ∈ messages, m.timestamp ≤ t) ∧
        (calculateMetrics now messages udn).days_since_contact =
          some (Int.fdiv (now - t) 86400) ∧
        (t ≤ now → 0 ≤ Int.fdiv (now - t) 86400)) := by
  obtain ⟨hlast, hdays⟩ := calculateMetrics_recency now messages udn
  constructor
  · intro h
    subst h
    exact ⟨hlast, hdays⟩
  · intro hne
    have hsne : sortMessages messages ≠ [] := by
      intro hs
      apply hne
      have := (sortMessages_perm messages).length_eq
      rw [hs] at this
      exact List.length_eq_zero.1 this.symm
    have hget := List.getLast?_eq_getLast_of_ne_nil hsne
    set y := (sortMessages messages).getLast hsne with hy
    refine ⟨y.timestamp, ?_, ?_, ?_, ?_, ?_⟩
    · rw [hlast, hget]
    · refine ⟨y, ?_, rfl⟩
      exact (sortMessages_perm messages).mem_iff.1 (List.getLast_mem hsne)
    · intro m hm
      exact pairwise_le_getLast (sortMessages messages)
        (sortMessages_pairwise messages) m
        ((sortMessages_perm messages).mem_iff.2 hm) y hget
    · rw [hdays, hget]
    · intro hty
      exact Int.fdiv_nonneg (by omega) (by norm_num)

/-- Witness for the amended C6 at a concrete non-empty input. -/
theorem c6_last_contact_witness :
    demoTwoPartners ≠ [] ∧
    (∃ t, (calculateMetrics 100 demoTwoPartners "Me".data).last_message_time = some t ∧
      (∃ m ∈ demoTwoPartners, m.timestamp = t) ∧
      (∀ m ∈ demoTwoPartners, m.timestamp ≤ t) ∧
      (calculateMetrics 100 demoTwoPartners "Me".data).days_since_contact =
        some (Int.fdiv (100 - t) 86400) ∧
      (t ≤ 100 → 0 ≤ Int.fdiv (100 - t) 86400)) :=
  ⟨by decide, (c6_last_contact 100 demoTwoPartners "Me".data).2 (by decide)⟩

/-- The resolved partner list of the group builder has no duplicates. -/
theorem groupPartners_nodup (messages : List Message) (u : Str) :
    (groupPartners messages u).Nodup := by
  exact (List.nodup_dedup _).filter _

/-- C5: a three-party transcript, user plus two tidy partner names with no
cross-talk, splits into exactly two Conversations, and every message of a
Conversation is sent by the user or by that partner, so the conversation of
one partner carries no message of the other. -/
theorem c5_group_splitting (userId : Str) (now : Int) (messages : List Message)
    (u A B : Str)
    (hAu : A ≠ u) (hBu : B ≠ u) (hAB : A ≠ B)
    (hcA : cleanSenderName A = A) (hcB : cleanSenderName B = B)
    (hneA : A ≠ []) (hneB : B ≠ [])
    (hyA1 : A ≠ "You".data) (hyA2 : A ≠ "you".data)
    (hyB1 : B ≠ "You".data) (hyB2 : B ≠ "you".data)
    (hgA : isGroupName A = false) (hgB : isGroupName B = false)
    (hall : ∀ m ∈ messages, m.sender = u ∨ m.sender = A ∨ m.sender = B)
    (hexA : ∃ m ∈ messages, m.sender = A)
    (hexB : ∃ m ∈ messages, m.sender = B) :
    (createConversationsFromGroup userId now messages u).length = 2 ∧
    (∀ c ∈ createConversationsFromGroup userId now messages u,
      ∀ m ∈ c.messages,
        (m.sender = u ∨ m.sender = c.partnerName) ∧
        (c.partnerName = A → m.sender ≠ B) ∧
        (c.partnerName = B → m.sender ≠ A)) := by
  obtain ⟨mA, hmAmem, hmAs⟩ := hexA
  obtain ⟨mB, hmBmem, hmBs⟩ := hexB
  have hpart_mem : ∀ p, p ∈ groupPartners messages u ↔ (p = A ∨ p = B) := by
    intro p
    rw [mem_groupPartners]
    constructor
    · rintro ⟨⟨⟨s0, hs0mem, hs0u, hclean⟩, _, _, _⟩, _⟩
      obtain ⟨m, hm, hms⟩ := List.mem_map.1 hs0mem
      rcases hall m hm with hmu | hma | hmb
      · exact absurd (hms.symm.trans hmu) hs0u
      · exact Or.inl (by rw [← hclean, hms.symm.trans hma, hcA])
      · exact Or.inr (by rw [← hclean, hms.symm.trans hmb, hcB])
    · rintro (hpa | hpb)
      · refine ⟨⟨⟨A, hmAs ▸ List.mem_map_of_mem Message.sender hmAmem, hAu, ?_⟩,
          ?_, ?_, ?_⟩, ?_⟩ <;> rw [hpa] <;>
          first
          | exact hcA
          | exact hneA
          | exact hyA1
          | exact hyA2
          | exact hgA
      · refine ⟨⟨⟨B, hmBs ▸ List.mem_map_of_mem Message.sender hmBmem, hBu, ?_⟩,
          ?_, ?_, ?_⟩, ?_⟩ <;> rw [hpb] <;>
          first
          | exact hcB
          | exact hneB
          | exact hyB1
          | exact hyB2
          | exact hgB
  have hpartners_len : (groupPartners messages u).length = 2 := by
    have hnodup := groupPartners_nodup messages u
    have hfin : (groupPartners messages u).toFinset = {A, B} := by
      apply Finset.ext
      intro x
      rw [List.mem_toFinset, hpart_mem]
      simp [Finset.mem_insert, Finset.mem_singleton]
    have hcard : ({A, B} : Finset Str).card = 2 := by
      rw [Finset.card_insert_of_not_mem (by simp [hAB]), Finset.card_singleton]
    rw [← List.toFinset_card_of_nodup hnodup, hfin, hcard]
  have hlen : (createConversationsFromGroup userId now messages u).length = 2 := by
    rw [createConversationsFromGroup]
    rw [length_filterMap_of_forall_some _ _ ?_, hpartners_len]
    intro p hp
    rcases (hpart_mem p).1 hp with hpa | hpb
    · have hpos : 0 < (messages.filter
          (fun m => m.sender == p || m.sender == u)).length := by
        apply List.length_pos_of_mem (a := mA)
        rw [List.mem_filter]
        exact ⟨hmAmem, by simp [hmAs, hpa]⟩
      exact ⟨_, by rw [if_pos hpos]⟩
    · have hpos : 0 < (messages.filter
          (fun m => m.sender == p || m.sender == u)).length := by
        apply List.length_pos_of_mem (a := mB)
        rw [List.mem_filter]
        exact ⟨hmBmem, by simp [hmBs, hpb]⟩
      exact ⟨_, by rw [if_pos hpos]⟩
  refine ⟨hlen, ?_⟩
  intro c hc m hmc
  rw [mem_createConversationsFromGroup] at hc
  obtain ⟨p, hp, hpos, rfl⟩ := hc
  rw [buildConversation_messages] at hmc
  rw [List.mem_filter] at hmc
  obtain ⟨hmmem, hcond⟩ := hmc
  simp only [Bool.or_eq_true, beq_iff_eq] at hcond
  rw [buildConversation_partnerName]
  refine ⟨hcond.symm, ?_, ?_⟩
  · rintro rfl hmB2
    rcases hcond with h | h
    · exact hAB (hmB2 ▸ h).symm
    · exact hBu (hmB2 ▸ h)
  · rintro rfl hmA2
    rcases hcond with h | h
    · exact hAB (hmA2 ▸ h)
    · exact hAu (hmA2 ▸ h)

/-- Sample three-party transcript messages: user Me plus partners Alice and
Bobby, no cross-talk. -/
def demoThreeParty : List Message :=
  [ { timestamp := 0, sender := "Me".data, content := "hello group".data },
    { timestamp := 10, sender := "Alice".data, content := "hi there".data },
    { timestamp := 20, sender := "Bobby".data, content := "good morning".data },
    { timestamp := 30, sender := "Me".data, content := "nice day".data } ]

/-- Witness for C5 at the concrete three-party input. -/
theorem c5_group_splitting_witness :
    (∀ m ∈ demoThreeParty,
      m.sender = "Me".data ∨ m.sender = "Alice".data ∨ m.sender = "Bobby".data) ∧
    (createConversationsFromGroup "u1".data 0 demoThreeParty "Me".data).length = 2 :=
  ⟨by intro m hm; fin_cases hm <;> simp [demoThreeParty],
   (c5_group_splitting "u1".data 0 demoThreeParty "Me".data "Alice".data "Bobby".data
      (by decide) (by decide) (by decide) (by decide) (by decide) (by decide)
      (by decide) (by decide) (by decide) (by decide) (by decide) (by decide)
      (by decide)
      (by intro m hm; fin_cases hm <;> simp [demoThreeParty])
      ⟨demoThreeParty.get ⟨1, by decide⟩, by decide⟩
      ⟨demoThreeParty.get ⟨2, by decide⟩, by decide⟩).1⟩

/-- C8: a transcript of a header line followed by two non-header non-empty
lines yields exactly one Message whose content is the three lines joined by
newlines, the header contributing its cleaned content and each continuation
line being appended verbatim after a newline. -/
theorem c8_multiline_accumulation (content h l1 l2 u : Str)
    (tsStr snd c0 : Str) (t : Int)
    (hsplit : splitLines content = [h, l1, l2])
    (hmatch : matchMessageLine (pyStrip h) = some (tsStr, snd, c0))
    (hts : parseTimestamp tsStr = some t)
    (hsys : isSystemMessage (cleanContent c0) = false)
    (hne : cleanContent c0 ≠ [])
    (hl1ne : pyStrip l1 ≠ []) (hl1m : matchMessageLine (pyStrip l1) = none)
    (hl2ne : pyStrip l2 ≠ []) (hl2m : matchMessageLine (pyStrip l2) = none) :
    parseChatFile content u =
      [{ timestamp := t, sender := pyStrip snd,
         content := cleanContent c0 ++ '\n' :: (pyStrip l1 ++ '\n' :: pyStrip l2) }] := by
  have hhne : pyStrip h ≠ [] := by
    intro he
    have hnone : matchMessageLine ([] : Str) = none := by decide
    rw [he, hnone] at hmatch
    exact Option.noConfusion hmatch
  have hstep1 : parseStep ([], none) h =
      ([], some ⟨t, pyStrip snd, cleanContent c0, none⟩) := by
    simp only [parseStep, if_neg hhne, hmatch, hts, hsys, Bool.false_eq_true,
      if_false, if_neg hne]
    rfl
  have hstep2 : parseStep ([], some ⟨t, pyStrip snd, cleanContent c0, none⟩) l1 =
      ([], some ⟨t, pyStrip snd, cleanContent c0 ++ '\n' :: pyStrip l1, none⟩) := by
    simp only [parseStep, if_neg hl1ne, hl1m]
  have hstep3 :
      parseStep ([], some ⟨t, pyStrip snd, cleanContent c0 ++ '\n' :: pyStrip l1, none⟩) l2 =
      ([], some ⟨t, pyStrip snd,
        (cleanContent c0 ++ '\n' :: pyStrip l1) ++ '\n' :: pyStrip l2, none⟩) := by
    simp only [parseStep, if_neg hl2ne, hl2m]
  simp only [parseChatFile, hsplit, List.foldl_cons, List.foldl_nil,
    hstep1, hstep2, hstep3]
  simp [flushCur, List.append_assoc]

/-- Sample three-line transcript: one header and two continuation lines. -/
def demoMultiline : Str :=
  "[1/2/24, 9:00:00 AM] Alice: first line".data ++ '\n' ::
    ("second line".data ++ '\n' :: "third line".data)

/-- Witness for C8 at the concrete three-line transcript. -/
theorem c8_multiline_accumulation_witness :
    splitLines demoMultiline =
      ["[1/2/24, 9:00:00 AM] Alice: first line".data,
       "second line".data, "third line".data] ∧
    parseChatFile demoMultiline "Bob".data =
      [{ timestamp := 1704186000,
         sender := pyStrip "Alice".data,
         content := cleanContent "first line".data ++ '\n' ::
           (pyStrip "second line".data ++ '\n' :: pyStrip "third line".data) }] :=
  ⟨by decide,
   c8_multiline_accumulation demoMultiline
     "[1/2/24, 9:00:00 AM] Alice: first line".data
     "second line".data "third line".data "Bob".data
     "1/2/24, 9:00:00 AM".data "Alice".data "first line".data 1704186000
     (by decide) (by decide) (by decide) (by decide) (by decide)
     (by decide) (by decide) (by decide) (by decide)⟩

/-- Splitting inversion of the bounded greedy repetition: a success consumed
a prefix of characters of the class and called the continuation on the
remaining suffix. -/
theorem mUpTo_split {α : Type} (p : Char → Bool) :
    ∀ (n : Nat) (s : Str) (k : Str → Option α) (r : α),
      mUpTo p n s k = some r →
      ∃ a b, s = a ++ b ∧ (∀ c ∈ a, p c = true) ∧ k b = some r := by
  intro n
  induction n with
  | zero =>
    intro s k r h
    exact ⟨[], s, rfl, by simp, h⟩
  | succ n ih =>
    intro s k r h
    cases s with
    | nil => exact ⟨[], [], rfl, by simp, h⟩
    | cons c rest =>
      rw [mUpTo] at h
      by_cases hp : p c
      · rw [if_pos hp] at h
        rcases (orElse_eq_some _ _ _).1 h with h1 | ⟨_, h2⟩
        · obtain ⟨a, b, hab, hall, hk⟩ := ih rest k r h1
          refine ⟨c :: a, b, by rw [hab]; rfl, ?_, hk⟩
          intro x hx
          rcases List.mem_cons.1 hx with rfl | hxa
          · exact hp
          · exact hall x hxa
        · exact ⟨[], c :: rest, rfl, by simp, h2⟩
      · rw [if_neg hp] at h
        exact ⟨[], c :: rest, rfl, by simp, h⟩

/-- Inversion of the single-character matcher. -/
theorem mChar_split {α : Type} (p : Char → Bool) (s : Str) (k : Str → Option α)
    (r : α) (h : mChar p s k = some r) :
    ∃ c t, s = c :: t ∧ p c = true ∧ k t = some r := by
  cases s with
  | nil => exact absurd h (by simp [mChar])
  | cons c t =>
    rw [mChar] at h
    by_cases hp : p c
    · rw [if_pos hp] at h
      exact ⟨c, t, rfl, hp, h⟩
    · rw [if_neg hp] at h
      exact Option.noConfusion h

/-- Splitting inversion of the greedy plus. -/
theorem mPlus_split {α : Type} (p : Char → Bool) (s : Str) (k : Str → Option α)
    (r : α) (h : mPlus p s k = some r) :
    ∃ a b, s = a ++ b ∧ a ≠ [] ∧ (∀ c ∈ a, p c = true) ∧ k b = some r := by
  rw [mPlus] at h
  obtain ⟨c, t, rfl, hp, h2⟩ := mChar_split p s _ r h
  rw [mStar] at h2
  obtain ⟨a, b, hab, hall, hk⟩ := mUpTo_split p _ t _ r h2
  refine ⟨c :: a, b, by rw [hab]; rfl, by simp, ?_, hk⟩
  intro x hx
  rcases List.mem_cons.1 hx with rfl | hxa
  · exact hp
  · exact hall x hxa

/-- A successful single-character matcher invoked its continuation. -/
theorem mChar_called {α : Type} (p : Char → Bool) (s : Str) (k : Str → Option α)
    (r : α) (h : mChar p s k = some r) : ∃ t, k t = some r := by
  obtain ⟨c, t, _, _, hk⟩ := mChar_split p s k r h
  exact ⟨t, hk⟩

/-- A successful literal matcher invoked its continuation. -/
theorem mLit_called {α : Type} :
    ∀ (cs s : Str) (k : Str → Option α) (r : α),
      mLit cs s k = some r → ∃ t, k t = some r := by
  intro cs
  induction cs with
  | nil => intro s k r h; exact ⟨s, h⟩
  | cons c cs ih =>
    intro s k r h
    rw [mLit] at h
    obtain ⟨t, h2⟩ := mChar_called _ s _ r h
    exact ih t k r h2

/-- A successful bounded repetition invoked its continuation. -/
theorem mUpTo_called {α : Type} (p : Char → Bool) (n : Nat) (s : Str)
    (k : Str → Option α) (r : α) (h : mUpTo p n s k = some r) :
    ∃ t, k t = some r := by
  obtain ⟨a, b, _, _, hk⟩ := mUpTo_split p n s k r h
  exact ⟨b, hk⟩

/-- A successful star invoked its continuation. -/
theorem mStar_called {α : Type} (p : Char → Bool) (s : Str) (k : Str → Option α)
    (r : α) (h : mStar p s k = some r) : ∃ t, k t = some r := by
  rw [mStar] at h
  exact mUpTo_called p s.length s k r h

/-- A successful plus invoked its continuation. -/
theorem mPlus_called {α : Type} (p : Char → Bool) (s : Str) (k : Str → Option α)
    (r : α) (h : mPlus p s k = some r) : ∃ t, k t = some r := by
  obtain ⟨a, b, _, _, _, hk⟩ := mPlus_split p s k r h
  exact ⟨b, hk⟩

/-- A successful option invoked its continuation, given that its body always
does. -/
theorem mOpt_called {α : Type} (f : Str → (Str → Option α) → Option α)
    (hf : ∀ (s : Str) (k : Str → Option α) (r : α), f s k = some r → ∃ t, k t = some r)
    (s : Str) (k : Str → Option α) (r : α) (h : mOpt f s k = some r) :
    ∃ t, k t = some r := by
  rw [mOpt] at h
  rcases (orElse_eq_some _ _ _).1 h with h1 | ⟨_, h2⟩
  · exact hf s k r h1
  · exact ⟨s, h2⟩

/-- A successful alternation invoked its continuation, given that both
branches always do. -/
theorem mAlt_called {α : Type} (f g : Str → (Str → Option α) → Option α)
    (hf : ∀ (s : Str) (k : Str → Option α) (r : α), f s k = some r → ∃ t, k t = some r)
    (hg : ∀ (s : Str) (k : Str → Option α) (r : α), g s k = some r → ∃ t, k t = some r)
    (s : Str) (k : Str → Option α) (r : α) (h : mAlt f g s k = some r) :
    ∃ t, k t = some r := by
  rw [mAlt] at h
  rcases (orElse_eq_some _ _ _).1 h with h1 | ⟨_, h2⟩
  · exact hf s k r h1
  · exact hg s k r h2

/-- A successful capture invoked its two-argument continuation, given a body
that always invokes its continuation. -/
theorem mCapture_called {α : Type} (f : Str → (Str → Option α) → Option α)
    (hf : ∀ (s : Str) (k : Str → Option α) (r : α), f s k = some r → ∃ t, k t = some r)
    (s : Str) (k : Str → Str → Option α) (r : α) (h : mCapture f s k = some r) :
    ∃ cap t, k cap t = some r := by
  rw [mCapture] at h
  obtain ⟨t, hk⟩ := hf s _ r h
  exact ⟨s.take (s.length - t.length), t, hk⟩

/-- Splitting inversion of a captured plus: the captured group is exactly
the consumed non-empty prefix of class characters. -/
theorem mCapture_plus_split {α : Type} (p : Char → Bool) (s : Str)
    (k : Str → Str → Option α) (r : α) (h : mCapture (mPlus p) s k = some r) :
    ∃ a b, s = a ++ b ∧ a ≠ [] ∧ (∀ c ∈ a, p c = true) ∧ k a b = some r := by
  rw [mCapture] at h
  obtain ⟨a, b, rfl, hne, hall, hk⟩ := mPlus_split p s _ r h
  refine ⟨a, b, rfl, hne, hall, ?_⟩
  have htake : (a ++ b).take ((a ++ b).length - b.length) = a := by
    simp [List.length_append, Nat.add_sub_cancel, List.take_left]
  rw [htake] at hk
  exact hk

/-- A successful one-or-two-digits matcher invoked its continuation. -/
theorem mDigits12_called {α : Type} (s : Str) (k : Str → Option α) (r : α)
    (h : mDigits12 s k = some r) : ∃ t, k t = some r := by
  rw [mDigits12] at h
  obtain ⟨t, h2⟩ := mChar_called _ s _ r h
  exact mUpTo_called _ 1 t k r h2

/-- A successful AM/PM matcher invoked its continuation. -/
theorem mAmPm_called {α : Type} (s : Str) (k : Str → Option α) (r : α)
    (h : mAmPm s k = some r) : ∃ t, k t = some r := by
  rw [mAmPm] at h
  refine mAlt_called _ _ (fun s k r h => mLit_called _ s k r h) ?_ s k r h
  intro s k r h
  refine mAlt_called _ _ (fun s k r h => mLit_called _ s k r h) ?_ s k r h
  intro s k r h
  exact mAlt_called _ _ (fun s k r h => mLit_called _ s k r h)
    (fun s k r h => mLit_called _ s k r h) s k r h

/-- A successful optional-seconds group invoked its continuation. -/
theorem mSecondsOpt_called {α : Type} (s : Str) (k : Str → Option α) (r : α)
    (h : mOpt (fun t kt => mLit [':'] t (fun r2 =>
        mChar isDigitChar r2 (fun r3 => mChar isDigitChar r3 kt))) s k = some r) :
    ∃ t, k t = some r := by
  refine mOpt_called _ ?_ s k r h
  intro s k r h
  obtain ⟨t1, h1⟩ := mLit_called _ s _ r h
  obtain ⟨t2, h2⟩ := mChar_called _ t1 _ r h1
  exact mChar_called _ t2 _ r h2

/-- A successful date-and-time core matcher invoked its continuation. -/
theorem mDateTimeCore_called {α : Type} (s : Str) (k : Str → Option α) (r : α)
    (h : mDateTimeCore s k = some r) : ∃ t, k t = some r := by
  rw [mDateTimeCore] at h
  obtain ⟨t1, h⟩ := mDigits12_called s _ r h
  obtain ⟨t2, h⟩ := mLit_called _ t1 _ r h
  obtain ⟨t3, h⟩ := mDigits12_called t2 _ r h
  obtain ⟨t4, h⟩ := mLit_called _ t3 _ r h
  obtain ⟨t5, h⟩ := mChar_called _ t4 _ r h
  obtain ⟨t6, h⟩ := mChar_called _ t5 _ r h
  obtain ⟨t7, h⟩ := mUpTo_called _ 2 t6 _ r h
  obtain ⟨t8, h⟩ := mLit_called _ t7 _ r h
  obtain ⟨t9, h⟩ := mPlus_called _ t8 _ r h
  obtain ⟨t10, h⟩ := mDigits12_called t9 _ r h
  obtain ⟨t11, h⟩ := mLit_called _ t10 _ r h
  obtain ⟨t12, h⟩ := mChar_called _ t11 _ r h
  obtain ⟨t13, h⟩ := mChar_called _ t12 _ r h
  obtain ⟨t14, h⟩ := mSecondsOpt_called t13 _ r h
  obtain ⟨t15, h⟩ := mStar_called _ t14 _ r h
  exact mOpt_called _ (fun s k r h => mAmPm_called s k r h) t15 k r h

/-- A successful date-and-time core matcher without the AM/PM tail invoked
its continuation. -/
theorem mDateTimeCoreNoAmPm_called {α : Type} (s : Str) (k : Str → Option α)
    (r : α) (h : mDateTimeCoreNoAmPm s k = some r) : ∃ t, k t = some r := by
  rw [mDateTimeCoreNoAmPm] at h
  obtain ⟨t1, h⟩ := mDigits12_called s _ r h
  obtain ⟨t2, h⟩ := mLit_called _ t1 _ r h
  obtain ⟨t3, h⟩ := mDigits12_called t2 _ r h
  obtain ⟨t4, h⟩ := mLit_called _ t3 _ r h
  obtain ⟨t5, h⟩ := mChar_called _ t4 _ r h
  obtain ⟨t6, h⟩ := mChar_called _ t5 _ r h
  obtain ⟨t7, h⟩ := mUpTo_called _ 2 t6 _ r h
  obtain ⟨t8, h⟩ := mLit_called _ t7 _ r h
  obtain ⟨t9, h⟩ := mPlus_called _ t8 _ r h
  obtain ⟨t10, h⟩ := mDigits12_called t9 _ r h
  obtain ⟨t11, h⟩ := mLit_called _ t10 _ r h
  obtain ⟨t12, h⟩ := mChar_called _ t11 _ r h
  obtain ⟨t13, h⟩ := mChar_called _ t12 _ r h
  exact mSecondsOpt_called t13 k r h

/-- The content group of the primary header pattern is a non-empty run of
non-newline characters. -/
theorem matchWhatsappPattern_content (line ts snd c : Str)
    (h : matchWhatsappPattern line = some (ts, snd, c)) :
    c ≠ [] ∧ ∀ ch ∈ c, ch ≠ '\n' := by
  rw [matchWhatsappPattern] at h
  obtain ⟨s1, h⟩ := mChar_called _ line _ _ h
  obtain ⟨g1, s2, h⟩ := mCapture_called _ (fun s k r h => mPlus_called _ s k r h) s1 _ _ h
  obtain ⟨s3, h⟩ := mChar_called _ s2 _ _ h
  obtain ⟨s4, h⟩ := mPlus_called _ s3 _ _ h
  obtain ⟨g2, s5, h⟩ := mCapture_called _ (fun s k r h => mPlus_called _ s k r h) s4 _ _ h
  obtain ⟨s6, h⟩ := mChar_called _ s5 _ _ h
  obtain ⟨s7, h⟩ := mPlus_called _ s6 _ _ h
  obtain ⟨a, b, hab, hne, hall, hk⟩ := mCapture_plus_split _ s7 _ _ h
  simp only [Option.some.injEq, Prod.mk.injEq] at hk
  obtain ⟨_, _, rfl⟩ := hk
  refine ⟨hne, ?_⟩
  intro ch hch
  have := hall ch hch
  simpa using this

/-- The content group of the first alternative header pattern is a non-empty
run of non-newline characters. -/
theorem matchAlternative1_content (line ts snd c : Str)
    (h : matchAlternative1 line = some (ts, snd, c)) :
    c ≠ [] ∧ ∀ ch ∈ c, ch ≠ '\n' := by
  rw [matchAlternative1] at h
  obtain ⟨s1, h⟩ := mChar_called _ line _ _ h
  obtain ⟨g1, s2, h⟩ := mCapture_called _ (fun s k r h => mDateTimeCore_called s k r h) s1 _ _ h
  obtain ⟨s3, h⟩ := mChar_called _ s2 _ _ h
  obtain ⟨s4, h⟩ := mPlus_called _ s3 _ _ h
  obtain ⟨g2, s5, h⟩ := mCapture_called _ (fun s k r h => mPlus_called _ s k r h) s4 _ _ h
  obtain ⟨s6, h⟩ := mChar_called _ s5 _ _ h
  obtain ⟨s7, h⟩ := mPlus_called _ s6 _ _ h
  obtain ⟨a, b, hab, hne, hall, hk⟩ := mCapture_plus_split _ s7 _ _ h
  simp only [Option.some.injEq, Prod.mk.injEq] at hk
  obtain ⟨_, _, rfl⟩ := hk
  refine ⟨hne, ?_⟩
  intro ch hch
  have := hall ch hch
  simpa using this

/-- The content group of the second alternative header pattern is a
non-empty run of non-newline characters. -/
theorem matchAlternative2_content (line ts snd c : Str)
    (h : matchAlternative2 line = some (ts, snd, c)) :
    c ≠ [] ∧ ∀ ch ∈ c, ch ≠ '\n' := by
  rw [matchAlternative2] at h
  obtain ⟨g1, s2, h⟩ := mCapture_called _ (fun s k r h => mDateTimeCore_called s k r h) line _ _ h
  obtain ⟨s3, h⟩ := mStar_called _ s2 _ _ h
  obtain ⟨s4, h⟩ := mChar_called _ s3 _ _ h
  obtain ⟨s5, h⟩ := mStar_called _ s4 _ _ h
  obtain ⟨g2, s6, h⟩ := mCapture_called _ (fun s k r h => mPlus_called _ s k r h) s5 _ _ h
  obtain ⟨s7, h⟩ := mChar_called _ s6 _ _ h
  obtain ⟨s8, h⟩ := mPlus_called _ s7 _ _ h
  obtain ⟨a, b, hab, hne, hall, hk⟩ := mCapture_plus_split _ s8 _ _ h
  simp only [Option.some.injEq, Prod.mk.injEq] at hk
  obtain ⟨_, _, rfl⟩ := hk
  refine ⟨hne, ?_⟩
  intro ch hch
  have := hall ch hch
  simpa using this

/-- The content group of the third alternative header pattern is a non-empty
run of non-newline characters. -/
theorem matchAlternative3_content (line ts snd c : Str)
    (h : matchAlternative3 line = some (ts, snd, c)) :
    c ≠ [] ∧ ∀ ch ∈ c, ch ≠ '\n' := by
  rw [matchAlternative3] at h
  obtain ⟨g1, s2, h⟩ := mCapture_called _ (fun s k r h => mDateTimeCoreNoAmPm_called s k r h) line _ _ h
  obtain ⟨s3, h⟩ := mStar_called _ s2 _ _ h
  obtain ⟨s4, h⟩ := mChar_called _ s3 _ _ h
  obtain ⟨s5, h⟩ := mStar_called _ s4 _ _ h
  obtain ⟨g2, s6, h⟩ := mCapture_called _ (fun s k r h => mPlus_called _ s k r h) s5 _ _ h
  obtain ⟨s7, h⟩ := mChar_called _ s6 _ _ h
  obtain ⟨s8, h⟩ := mPlus_called _ s7 _ _ h
  obtain ⟨a, b, hab, hne, hall, hk⟩ := mCapture_plus_split _ s8 _ _ h
  simp only [Option.some.injEq, Prod.mk.injEq] at hk
  obtain ⟨_, _, rfl⟩ := hk
  refine ⟨hne, ?_⟩
  intro ch hch
  have := hall ch hch
  simpa using this

/-- The content group of any matched header line is a non-empty run of
non-newline characters. -/
theorem matchMessageLine_content (line ts snd c : Str)
    (h : matchMessageLine line = some (ts, snd, c)) :
    c ≠ [] ∧ ∀ ch ∈ c, ch ≠ '\n' := by
  rw [matchMessageLine] at h
  rcases (orElse_eq_some _ _ _).1 h with h1 | ⟨_, h2⟩
  · rcases (orElse_eq_some _ _ _).1 h1 with h3 | ⟨_, h4⟩
    · exact matchWhatsappPattern_content line ts snd c h3
    · exact matchAlternative1_content line ts snd c h4
  · rcases (orElse_eq_some _ _ _).1 h2 with h3 | ⟨_, h4⟩
    · exact matchAlternative2_content line ts snd c h3
    · exact matchAlternative3_content line ts snd c h4

/-- Membership survives dropWhile backwards. -/
theorem mem_of_mem_dropWhile (p : Char → Bool) :
    ∀ (l : Str) (ch : Char), ch ∈ l.dropWhile p → ch ∈ l := by
  intro l
  induction l with
  | nil => intro ch h; exact absurd h (List.not_mem_nil ch)
  | cons c t ih =>
    intro ch h
    rw [List.dropWhile] at h
    cases hp : p c
    · rw [hp] at h
      exact h
    · rw [hp] at h
      exact List.mem_cons_of_mem c (ih ch h)

/-- Membership survives the whitespace trim backwards. -/
theorem mem_of_mem_pyStrip (s : Str) (ch : Char) (h : ch ∈ pyStrip s) : ch ∈ s := by
  rw [pyStrip] at h
  rw [List.mem_reverse] at h
  have h2 := mem_of_mem_dropWhile _ _ _ h
  rw [List.mem_reverse] at h2
  exact mem_of_mem_dropWhile _ _ _ h2

/-- Membership survives the edited-suffix removal backwards. -/
theorem mem_of_mem_stripEditedSuffix (s : Str) (ch : Char)
    (h : ch ∈ stripEditedSuffix s) : ch ∈ s := by
  rw [stripEditedSuffix] at h
  by_cases hs : editedMarker.isSuffixOf s
  · rw [if_pos hs] at h
    rw [List.mem_reverse] at h
    have h2 := mem_of_mem_dropWhile _ _ _ h
    rw [List.mem_reverse] at h2
    by_cases hl : (s.take (s.length - editedMarker.length)).getLast? = some lrmChar
    · rw [if_pos hl] at h2
      exact List.take_subset _ _ (List.dropLast_subset _ h2)
    · rw [if_neg hl] at h2
      exact List.take_subset _ _ h2
  · rw [if_neg hs] at h
    exact h

/-- Membership survives content cleaning backwards. -/
theorem mem_of_mem_cleanContent (s : Str) (ch : Char)
    (h : ch ∈ cleanContent s) : ch ∈ s := by
  rw [cleanContent] at h
  exact mem_of_mem_stripEditedSuffix _ _
    (mem_of_mem_dropWhile _ _ _ (mem_of_mem_pyStrip _ _ h))

/-- The first line of a newline-free string is the string itself. -/
theorem firstLine_of_no_newline :
    ∀ s : Str, (∀ ch ∈ s, ch ≠ '\n') → firstLine s = s := by
  intro s
  induction s with
  | nil => intro _; rfl
  | cons c t ih =>
    intro h
    rw [firstLine, List.takeWhile]
    have hc : notNL c = true := by
      simp [notNL, h c (List.mem_cons_self c t)]
    rw [hc]
    have := ih (fun ch hch => h ch (List.mem_cons_of_mem c hch))
    rw [firstLine] at this
    rw [this]

/-- Appending a newline and anything does not change the first line. -/
theorem firstLine_append_newline :
    ∀ x y : Str, firstLine (x ++ '\n' :: y) = firstLine x := by
  intro x y
  induction x with
  | nil =>
    simp [firstLine, List.takeWhile, notNL]
  | cons c t ih =>
    simp only [List.cons_append, firstLine, List.takeWhile]
    cases hc : notNL c
    · rfl
    · show c :: List.takeWhile notNL (t ++ '\n' :: y) = c :: List.takeWhile notNL t
      rw [show List.takeWhile notNL (t ++ '\n' :: y) = List.takeWhile notNL t from ih]

/-- State invariant of the segmenter loop: no emitted or open message has a
system-message first line. -/
def MsgOk (m : Message) : Prop := isSystemMessage (firstLine m.content) = false

/-- Flushing preserves the invariant. -/
theorem flushCur_ok (msgs : List Message) (cur : Option Message)
    (h1 : ∀ m ∈ msgs, MsgOk m) (h2 : ∀ m, cur = some m → MsgOk m) :
    ∀ m ∈ flushCur msgs cur, MsgOk m := by
  intro m hm
  cases cur with
  | none => exact h1 m hm
  | some m0 =>
    rw [flushCur] at hm
    rcases List.mem_append.1 hm with hml | hmr
    · exact h1 m hml
    · rw [List.mem_singleton] at hmr
      exact hmr ▸ h2 m0 rfl

/-- One segmenter step preserves the invariant. -/
theorem parseStep_preserves (st : List Message × Option Message) (line : Str)
    (h1 : ∀ m ∈ st.1, MsgOk m) (h2 : ∀ m, st.2 = some m → MsgOk m) :
    (∀ m ∈ (parseStep st line).1, MsgOk m) ∧
    (∀ m, (parseStep st line).2 = some m → MsgOk m) := by
  have hflush := flushCur_ok st.1 st.2 h1 h2
  simp only [parseStep]
  by_cases hline : pyStrip line = []
  · rw [if_pos hline]
    exact ⟨h1, h2⟩
  · rw [if_neg hline]
    cases hm : matchMessageLine (pyStrip line) with
    | none =>
      cases hc : st.2 with
      | none => exact ⟨h1, fun m hm2 => h2 m hm2⟩
      | some m0 =>
        refine ⟨h1, ?_⟩
        intro m hm2
        simp only [Option.some.injEq] at hm2
        rw [MsgOk, ← hm2]
        have hok := h2 m0 hc
        rw [MsgOk] at hok
        simpa [firstLine_append_newline] using hok
    | some g =>
      obtain ⟨tsStr, snd, c0⟩ := g
      dsimp only
      by_cases hsys : isSystemMessage (cleanContent c0) = true
      · rw [if_pos (by simp [hsys])]
        exact ⟨hflush, fun m hm2 => Option.noConfusion hm2⟩
      · rw [if_neg (by simp [hsys])]
        by_cases hempty : cleanContent c0 = []
        · rw [if_pos hempty]
          exact ⟨hflush, fun m hm2 => Option.noConfusion hm2⟩
        · rw [if_neg hempty]
          cases hts : parseTimestamp tsStr with
          | none => exact ⟨hflush, fun m hm2 => Option.noConfusion hm2⟩
          | some t =>
            refine ⟨hflush, ?_⟩
            intro m hm2
            simp only [Option.some.injEq] at hm2
            rw [MsgOk, ← hm2]
            have hnn : ∀ ch ∈ cleanContent c0, ch ≠ '\n' := by
              intro ch hch
              exact (matchMessageLine_content _ _ _ _ hm).2 ch
                (mem_of_mem_cleanContent c0 ch hch)
            simp only
            rw [firstLine_of_no_newline (cleanContent c0) hnn]
            exact Bool.not_eq_true _ ▸ hsys

/-- Sample transcript consisting only of system lines: a group-created line,
a member-added line (both without a sender colon) and an encryption banner
behind a sender. -/
def demoSystemOnly : Str :=
  ("[8/27/24, 11:06:51 AM] ".data ++ lrmChar :: "You created this group".data) ++
  '\n' :: (("[8/27/24, 11:07:00 AM] ".data ++ lrmChar :: "Alice added you".data) ++
  '\n' :: ("[8/27/24, 11:07:10 AM] Fam: ".data ++ lrmChar ::
    "Messages and calls are end-to-end encrypted. No one outside of this chat can read them.".data))

set_option maxRecDepth 8000 in
/-- C3: a header line whose cleaned content matches a system-message pattern
opens no message, only flushing the previous one; consequently every emitted
Message has a non-system first content line; and the concrete transcript of
a group-created line, a member-added line and an encryption banner yields
zero Messages. -/
theorem c3_system_noise_filtering :
    (∀ (st : List Message × Option Message) (line tsStr snd c0 : Str),
        matchMessageLine (pyStrip line) = some (tsStr, snd, c0) →
        isSystemMessage (cleanContent c0) = true →
        parseStep st line = (flushCur st.1 st.2, none)) ∧
    (∀ (content u : Str), ∀ m ∈ parseChatFile content u,
        isSystemMessage (firstLine m.content) = false) ∧
    parseChatFile demoSystemOnly "Bob".data = [] := by
  refine ⟨?_, ?_, by decide⟩
  · intro st line tsStr snd c0 hm hsys
    have hline : pyStrip line ≠ [] := by
      intro he
      have hnone : matchMessageLine ([] : Str) = none := by decide
      rw [he, hnone] at hm
      exact Option.noConfusion hm
    simp only [parseStep, if_neg hline, hm, hsys, if_true]
  · intro content u
    have inv : ∀ (lines : List Str) (st : List Message × Option Message),
        (∀ m ∈ st.1, MsgOk m) → (∀ m, st.2 = some m → MsgOk m) →
        (∀ m ∈ (lines.foldl parseStep st).1, MsgOk m) ∧
        (∀ m, (lines.foldl parseStep st).2 = some m → MsgOk m) := by
      intro lines
      induction lines with
      | nil => intro st h1 h2; exact ⟨h1, h2⟩
      | cons l ls ih =>
        intro st h1 h2
        simp only [List.foldl_cons]
        obtain ⟨h1n, h2n⟩ := parseStep_preserves st l h1 h2
        exact ih _ h1n h2n
    intro m hm
    obtain ⟨h1f, h2f⟩ := inv (splitLines content) ([], none)
      (by intro m hm2; exact absurd hm2 (List.not_mem_nil m))
      (by intro m hm2; exact Option.noConfusion hm2)
    have := flushCur_ok _ _ h1f h2f m (by
      rw [parseChatFile] at hm
      exact hm)
    exact this

set_option maxRecDepth 8000 in
/-- Witness for C3 at a concrete system header line. -/
theorem c3_system_noise_filtering_witness :
    matchMessageLine (pyStrip ("[8/27/24, 11:07:10 AM] Fam: ".data ++ lrmChar ::
        "Messages and calls are end-to-end encrypted.".data)) =
      some ("8/27/24, 11:07:10 AM".data, "Fam".data,
        lrmChar :: "Messages and calls are end-to-end encrypted.".data) ∧
    isSystemMessage (cleanContent (lrmChar ::
      "Messages and calls are end-to-end encrypted.".data)) = true ∧
    parseStep ([], none) ("[8/27/24, 11:07:10 AM] Fam: ".data ++ lrmChar ::
        "Messages and calls are end-to-end encrypted.".data) =
      (flushCur [] none, none) :=
  ⟨by decide, by decide,
   c3_system_noise_filtering.1 ([], none)
     ("[8/27/24, 11:07:10 AM] Fam: ".data ++ lrmChar ::
       "Messages and calls are end-to-end encrypted.".data)
     "8/27/24, 11:07:10 AM".data "Fam".data
     (lrmChar :: "Messages and calls are end-to-end encrypted.".data)
     (by decide) (by decide)⟩

/-- Witness for the amended C7 at concrete inputs. -/
theorem c7_empty_partner_set_witness :
    groupPartners demoUserOnly "Me".data = [] ∧
    createConversationsFromGroup "u1".data 0 demoUserOnly "Me".data = [] ∧
    ccCleanSenders demoUserOnly "Me".data = [] ∧
    createConversation "u1".data 0 demoUserOnly "Me".data none =
      some (buildConversation "u1".data 0 "Unknown".data demoUserOnly "Me".data) :=
  ⟨by decide,
   (c7_empty_partner_set "u1".data 0 demoUserOnly "Me".data).1 (by decide),
   by decide,
   (c7_empty_partner_set "u1".data 0 demoUserOnly "Me".data).2 (by decide)⟩

end SIMT
